import Mathlib

/-!
# speech_recog_uc: the recognition node (`speech_recog_node.cpp`)

A shallow embedding of the two functions of `speech_recog_node.cpp`:

* `gResponseHandlerThread`, the reader task that turns the responses of the
  recognition stream into interim (`words_pub`) and final (`sentences_pub`)
  messages;
* `speech_callback`, the per-chunk callback that adapts the audio, drives the
  recognition stream and accumulates / publishes the direction of arrival.

`Real` quantities of the program (`float` / `double`) are embedded over an
arbitrary linearly ordered field `α`, so that statements can be read over the
exact reals and evaluated over the rationals.
-/

namespace SpeechRecog

/-! ## Messages -/

/-- ROS message `speech_recog_uc::SpeechResult`. -/
structure SpeechResult (α : Type) where
  result : String
  confidence : α
deriving DecidableEq, Repr

/-- ROS message `speech_recog_uc::DOAResult`. -/
structure DOAResult (α : Type) where
  angle : α
deriving DecidableEq, Repr

/-- One `SpeechRecognitionAlternative` of the recognition protocol. -/
structure SpeechRecognitionAlternative (α : Type) where
  transcript : String
  confidence : α
deriving DecidableEq, Repr

/-- One `StreamingRecognitionResult` of the recognition protocol. -/
structure StreamingRecognitionResult (α : Type) where
  alternatives : List (SpeechRecognitionAlternative α)
  stability : α
deriving DecidableEq, Repr

/-- The message `StreamingRecognizeResponse` (typedef `reader`). -/
structure StreamingRecognizeResponse (α : Type) where
  results : List (StreamingRecognitionResult α)
deriving DecidableEq, Repr

/-! ## The reader task `gResponseHandlerThread` -/

/-- How the blocking `streamer->Read(&response)` stops delivering responses:
it returns `false` (the stream ended) or it raises. -/
inductive StreamEnd where
  | finished
  | raised
deriving DecidableEq, Repr

/-- How a run of the reader task leaves the function. `undefinedAccess` is an
out-of-range `results(0)` / `alternatives(0)` in a build of the protocol
library that does not check the index. -/
inductive ReaderExit where
  | completed
  | caught
  | undefinedAccess
deriving DecidableEq, Repr

/-- What one run of the reader task did: the messages it published on
`words_pub` and on `sentences_pub`, whether it executed
`streamer_ref->reset()`, and how it left. -/
structure ReaderRun (α : Type) where
  words_pub : List (SpeechResult α)
  sentences_pub : List (SpeechResult α)
  streamer_reset : Bool
  exit : ReaderExit
deriving DecidableEq, Repr

section Reader

variable {α : Type} [LinearOrderedField α]

/-- The two accesses `response.results(0)` and `result.alternatives(0)`;
`none` when one of the indices is out of range. -/
def firstAlternative (response : StreamingRecognizeResponse α) :
    Option (StreamingRecognitionResult α × SpeechRecognitionAlternative α) :=
  match response.results with
  | [] => none
  | result :: _ =>
    match result.alternatives with
    | [] => none
    | alternative :: _ => some (result, alternative)

/-- The `catch (...)` block: publish `bad_transcription` on `sentences_pub`. -/
def catchBlock (words : List (SpeechResult α)) : ReaderRun α :=
  { words_pub := words
    sentences_pub := [{ result := "", confidence := 0 }]
    streamer_reset := false
    exit := ReaderExit.caught }

/-- An out-of-range repeated-field index. The accessor checks its index only
in builds of the protocol library with checks enabled, where the failed check
raises (and the `catch (...)` block runs); `checked` says which build it is. -/
def accessFailure (checked : Bool) (words : List (SpeechResult α)) : ReaderRun α :=
  if checked then catchBlock words
  else
    { words_pub := words
      sentences_pub := []
      streamer_reset := false
      exit := ReaderExit.undefinedAccess }

/-- The `while(streamer->Read(&response))` loop followed by the code after it.
`rs` are the responses the successive `Read` calls deliver, `ending` is how the
next `Read` stops; `response` is the current value of the local `response` and
`words` what has been published on `words_pub` so far. -/
def readLoop (checked : Bool) (ending : StreamEnd) :
    List (StreamingRecognizeResponse α) → StreamingRecognizeResponse α →
    List (SpeechResult α) → ReaderRun α
  | [], response, words =>
    match ending with
    | StreamEnd.raised => catchBlock words
    | StreamEnd.finished =>
      match firstAlternative response with
      | none => accessFailure checked words
      | some (_, alternative) =>
        { words_pub := words
          sentences_pub :=
            [{ result := alternative.transcript, confidence := alternative.confidence }]
          streamer_reset := true
          exit := ReaderExit.completed }
  | r :: rest, _, words =>
    match firstAlternative r with
    | none => accessFailure checked words
    | some (result, alternative) =>
      if 0 < result.stability then
        readLoop checked ending rest r
          (words ++ [{ result := alternative.transcript, confidence := alternative.confidence }])
      else
        readLoop checked ending rest r words

/-- The reader task: `response` starts as the default (empty) message. -/
def gResponseHandlerThread (checked : Bool) (rs : List (StreamingRecognizeResponse α))
    (ending : StreamEnd) : ReaderRun α :=
  readLoop checked ending rs { results := [] } []

/-- A response has at least one result, whose first has at least one alternative. -/
def hasFirstAlternative (r : StreamingRecognizeResponse α) : Bool :=
  (firstAlternative r).isSome

/-- The first result of the response has stability `> 0`. -/
def firstStabilityPositive (r : StreamingRecognizeResponse α) : Bool :=
  match r.results with
  | [] => false
  | result :: _ => decide (0 < result.stability)

/-- Transcript and confidence of the first alternative of the first result
(the empty message when there is none). -/
def firstTranscription (r : StreamingRecognizeResponse α) : SpeechResult α :=
  match r.results with
  | [] => { result := "", confidence := 0 }
  | result :: _ =>
    match result.alternatives with
    | [] => { result := "", confidence := 0 }
    | alternative :: _ =>
      { result := alternative.transcript, confidence := alternative.confidence }

end Reader

/-! ## The recognition stream as `speech_callback` drives it -/

/-- The value `RecognitionConfig::LINEAR16` of the encoding field. -/
inductive AudioEncoding where
  | LINEAR16
deriving DecidableEq, Repr

/-- What `speech_callback` hands to the stream: a `StreamingRecognizeRequest`
carrying the streaming configuration, one carrying audio content, or the
half-close `WritesDone()`. An audio request is built by
`set_audio_content(google_ready_buffer, bytes_read)`: it is recorded with the
contents of `google_ready_buffer` (`none` for the `NULL` pointer, from which
only zero bytes can be taken) and the byte count it is asked to take from it. -/
inductive StreamRequest where
  | streaming_config (language_code : String) (sample_rate_hertz : Nat)
      (encoding : AudioEncoding) (interim_results : Bool)
  | audio_content (google_ready_buffer : Option (List Int)) (bytes_read : Nat)
  | writesDone
deriving DecidableEq, Repr

/-- One call on the stream together with the `bool` it returned. -/
structure StreamCall where
  request : StreamRequest
  ok : Bool
deriving DecidableEq, Repr

/-- Modelled from the spec: the constant `GOOGLE_STREAMING_CONFIG_SAMPLE_RATE`
is declared in the header `speech_node_classes.h`; the recognition protocol of
the spec fixes `sample_rate=16000`. -/
def GOOGLE_STREAMING_CONFIG_SAMPLE_RATE : Nat := 16000

/-- The width of a `short`. -/
def sizeof_short : Nat := 2

/-- The text of the `ROS_ERROR` of the sample-rate `else` branch. -/
def sampleRateError : String := "CRITICAL ERROR: SAMPLE RATE IS NOT 16KHz NOR 48KHz."

/-- The globals of the direction-of-arrival code, declared in the header: the
counters of `direction_of_arrival_histogram` and the `Real` scratch arrays
`x`, `y`, `x0`, `x1`. -/
structure DoaVars (α : Type) where
  direction_of_arrival_histogram : List Nat
  x : Nat → α
  y : Nat → α
  x0 : Nat → α
  x1 : Nat → α

/-- The constants, tables and functions `speech_callback` takes from the
header `speech_node_classes.h` and from the maths library; they are
parameters of the embedding. `channel_selection_function` and
`decimation_function` give the samples they store through their output
pointer; `gcc_phat` gives the new contents of its two in-place arrays and
`shift_np` of its one. -/
structure Globals (α : Type) where
  GLOBAL_SAMPLE_RATE : Nat
  GLOBAL_NUMBER_OF_CHANNELS : Nat
  dec_M : Nat
  chunkSizeSamples_N : Nat
  chunkMoveSamples_M : Nat
  GLOBAL_NFFT : Nat
  DOA_HISTOGRAM_TOT_NUM : Nat
  DOA_HISTOGRAM_MAX_LAG : Nat
  GLOBAL_SPEED_OF_SOUND : α
  GLOBAL_MIC_DISTANCE : α
  lags : Nat → α
  hamwin : Nat → α
  asin : α → α
  channel_selection_function : (Int → Int) → Nat → List Int
  decimation_function : (Int → Int) → Nat → List Int
  reset_doa_vars : DoaVars α → DoaVars α
  gcc_phat : (Nat → α) → (Nat → α) → Nat → Nat → (Nat → α) × (Nat → α)
  shift_np : (Nat → α) → Nat → Nat → (Nat → α)

/-- The fields of `recog_pointers_data_structures` the callback uses for the
stream and the direction of arrival. `streamer` is `none` for the null
pointer and `some s` for the `s`-th stream opened; `m_thread` is `some s` for
a joinable thread running `gResponseHandlerThread` on that stream;
`context_ptr` and `fft_obj` say whether the pointer holds a live object;
`leftch` / `righch` are `none` for `NULL` and else the allocated samples. The
fields `file` and `header_for_test` belong to the diagnostic capture
(`GLOBAL_OUTPUT_MODE`), which nothing else reads, and are left out. -/
structure RecogPointers where
  speech_p : Bool
  streamer : Option Nat
  context_ptr : Bool
  lang : String
  m_thread : Option Nat
  fft_obj : Bool
  leftch : Option (List Int)
  righch : Option (List Int)
deriving DecidableEq, Repr

/-- The state `speech_callback` works on: its `extradata`, the global
`google_ready_buffer` (`none` for `NULL`), the direction-of-arrival globals,
and what has left the process so far: the calls issued on recognition streams
(in order, with their results), the number of streams opened, the messages
published on the three ROS publishers and the `ROS_ERROR` lines. -/
structure State (α : Type) where
  recog_pointers : RecogPointers
  google_ready_buffer : Option (List Int)
  doa : DoaVars α
  stream_calls : List StreamCall
  streams_opened : Nat
  words_pub : List (SpeechResult α)
  sentences_pub : List (SpeechResult α)
  doa_pub : List (DOAResult α)
  ros_error : List String

/-- The arguments of one call of `speech_callback`: `data i` is the sample
`data[i]` (the direction-of-arrival code also reads before `data`, hence the
integer index), then `readbyteSize`, `isSOS`, `isEOS`. -/
structure Chunk where
  data : Int → Int
  readbyteSize : Nat
  isSOS : Bool
  isEOS : Bool

section Callback

variable {α : Type} [LinearOrderedField α] [FloorRing α]

/-- Conversion of a `Real` to an integer variable: truncation toward zero. -/
def truncToInt (v : α) : Int :=
  if 0 ≤ v then ⌊v⌋ else ⌈v⌉

/-- The C function `round` on an exactly represented quotient: to the nearest
integer, halves away from zero. -/
def cRound (q : ℚ) : Int :=
  if 0 ≤ q then ⌊q + 1 / 2⌋ else ⌈q - 1 / 2⌉

/-- `framesPerBuffer = readbyteSize / GLOBAL_NUMBER_OF_CHANNELS / sizeof(short)`. -/
def framesPerBufferOf (g : Globals α) (readbyteSize : Nat) : Nat :=
  readbyteSize / g.GLOBAL_NUMBER_OF_CHANNELS / sizeof_short

/-- The block "PREPARE AUDIO TO BE SENT TO GOOGLE": the new state and the
local `bytes_read`. In the last branch only `ROS_ERROR` runs: the buffer is
left as it is and `bytes_read` keeps its initial value `readbyteSize`.
`none`: an integer division by zero. -/
def prepareAudio (g : Globals α) (st : State α) (c : Chunk) : Option (State α × Nat) :=
  if g.GLOBAL_NUMBER_OF_CHANNELS = 0 then none
  else
    let framesPerBuffer := framesPerBufferOf g c.readbyteSize
    if g.GLOBAL_SAMPLE_RATE = GOOGLE_STREAMING_CONFIG_SAMPLE_RATE then
      some ({ st with
                google_ready_buffer :=
                  some (g.channel_selection_function c.data framesPerBuffer) },
            c.readbyteSize / g.GLOBAL_NUMBER_OF_CHANNELS)
    else if g.GLOBAL_SAMPLE_RATE = 48000 then
      if g.dec_M = 0 then none
      else
        let google_ready_buffer_size_bytes :=
          c.readbyteSize / g.GLOBAL_NUMBER_OF_CHANNELS / g.dec_M
        some ({ st with
                  google_ready_buffer :=
                    some (g.decimation_function c.data framesPerBuffer) },
              google_ready_buffer_size_bytes)
    else
      some ({ st with ros_error := st.ros_error ++ [sampleRateError] }, c.readbyteSize)

/-- A call on `recog_pointers->streamer`: `none` when the pointer is null,
else the call is recorded with the result the transport gives it (`grpc_ok k`
is the result of the `k`-th call). The caller stores the result in `aa` or
drops it and never reads it. -/
def streamCall (grpc_ok : Nat → Bool) (st : State α) (request : StreamRequest) :
    Option (State α) :=
  match st.recog_pointers.streamer with
  | none => none
  | some _ =>
    some { st with
      stream_calls :=
        st.stream_calls ++ [{ request := request, ok := grpc_ok st.stream_calls.length }] }

/-- The setter `request.set_audio_content(google_ready_buffer, bytes_read)`: it
builds a `std::string` of `bytes_read` bytes from the pointer. `none`: the
pointer is `NULL` and the byte count is not zero, for which the string
constructor raises, so that no request exists. -/
def set_audio_content (google_ready_buffer : Option (List Int)) (bytes_read : Nat) :
    Option StreamRequest :=
  match google_ready_buffer with
  | some samples => some (StreamRequest.audio_content (some samples) bytes_read)
  | none => if bytes_read = 0 then some (StreamRequest.audio_content none 0) else none

/-- The three statements that send audio: declare a request, fill it with
`set_audio_content(google_ready_buffer, bytes_read)`, `Write` it on the
stream. `none`: the setter raises (nothing is written), or the stream pointer
is null. -/
def writeAudio (grpc_ok : Nat → Bool) (st : State α) (bytes_read : Nat) : Option (State α) :=
  match set_audio_content st.google_ready_buffer bytes_read with
  | none => none
  | some request => streamCall grpc_ok st request

/-- The direction-of-arrival set-up of the `if (isSOS)` block, run with two
channels: a new `FFT` object, `reset_doa_vars()`, and the two channel buffers
of `framesPerBuffer` samples when `leftch` is still `NULL` (the fresh memory
is shown as zeros; it is filled before it is read). -/
def setupDoa (g : Globals α) (st : State α) (framesPerBuffer : Nat) : State α :=
  if g.GLOBAL_NUMBER_OF_CHANNELS = 2 then
    { st with
      doa := g.reset_doa_vars st.doa
      recog_pointers :=
        { st.recog_pointers with
          fft_obj := true
          leftch :=
            match st.recog_pointers.leftch with
            | none => some (List.replicate framesPerBuffer 0)
            | some l => some l
          righch :=
            match st.recog_pointers.leftch with
            | none => some (List.replicate framesPerBuffer 0)
            | some _ => st.recog_pointers.righch } }
  else st

/-- "STARTUP A STREAM": a new stub, a new context and the stream that
`StreamingRecognize` returns. -/
def openStream (st : State α) : State α :=
  { st with
    recog_pointers :=
      { st.recog_pointers with
        speech_p := true
        context_ptr := true
        streamer := some st.streams_opened }
    streams_opened := st.streams_opened + 1 }

/-- The statement `m_thread = std::thread(gResponseHandlerThread, &streamer)`;
`none` when `m_thread` is still joinable (the assignment terminates). -/
def startReader (st : State α) : Option (State α) :=
  match st.recog_pointers.m_thread with
  | some _ => none
  | none =>
    some { st with
      recog_pointers := { st.recog_pointers with m_thread := st.recog_pointers.streamer } }

/-- The `if (isSOS)` block: direction-of-arrival set-up, the new stream, the
configuration request, the reader thread, then a first audio request. -/
def startOfSpeech (g : Globals α) (grpc_ok : Nat → Bool) (st : State α)
    (framesPerBuffer bytes_read : Nat) : Option (State α) :=
  let st2 := openStream (setupDoa g st framesPerBuffer)
  match streamCall grpc_ok st2
      (StreamRequest.streaming_config st2.recog_pointers.lang
        GOOGLE_STREAMING_CONFIG_SAMPLE_RATE AudioEncoding.LINEAR16 true) with
  | none => none
  | some st3 =>
    match startReader st3 with
    | none => none
    | some st4 => writeAudio grpc_ok st4 bytes_read

/-- The loop "Find max in y": `HIST_MAX_POS = HIST_MAX_VALUE = y[0]`, then for
every `v < DOA_HISTOGRAM_TOT_NUM` a strictly greater `y[v]` replaces the pair.
The result is `(HIST_MAX_POS, HIST_MAX_VALUE)`. The two globals are declared
in the header: `HIST_MAX_VALUE` is taken to hold a `Real` and `HIST_MAX_POS`,
an array index, an integer, so that the chained initial assignment stores the
truncation of `y[0]` in it. -/
def findMaxInY (y : Nat → α) (tot : Nat) : Int × α :=
  (List.range tot).foldl
    (fun (p : Int × α) (v : Nat) => if p.2 < y v then ((v : Int), y v) else p)
    (truncToInt (y 0), y 0)

/-- The statement `direction_of_arrival_histogram[HIST_MAX_POS] += 1`; `none`
when the index is outside the histogram. -/
def incrementBin (hist : List Nat) (pos : Int) : Option (List Nat) :=
  if 0 ≤ pos ∧ pos.toNat < hist.length then
    some (hist.set pos.toNat (hist.getD pos.toNat 0 + 1))
  else none

/-- The end of one analysis window, from the lag-domain correlation `y` on:
find the maximum in `y` and increment its histogram bin. -/
def accumulateLag (tot : Nat) (y : Nat → α) (hist : List Nat) : Option (List Nat) :=
  incrementBin hist (findMaxInY y tot).1

/-- One iteration of the loop over `doa_chunk_count`: window the two channel
buffers into `x` and `y`, save them, run `gcc_phat` and `shift_np`, then
accumulate the lag. `none`: a sample index outside `leftch` / `righch`, or an
index outside the histogram. -/
def doaWindow (g : Globals α) (leftch righch : List Int) (doa : DoaVars α)
    (doa_chunk_count : Nat) : Option (DoaVars α) :=
  let base := doa_chunk_count * g.chunkMoveSamples_M
  if base < leftch.length ∧ base + g.chunkSizeSamples_N ≤ leftch.length ∧
      base < righch.length ∧ base + g.chunkSizeSamples_N ≤ righch.length then
    let x : Nat → α := fun hw =>
      if hw < g.chunkSizeSamples_N then ((leftch.getD (base + hw) 0 : Int) : α) * g.hamwin hw
      else doa.x hw
    let y : Nat → α := fun hw =>
      if hw < g.chunkSizeSamples_N then ((righch.getD (base + hw) 0 : Int) : α) * g.hamwin hw
      else doa.y hw
    let x0 : Nat → α := fun i => if i < g.GLOBAL_NFFT then x i else doa.x0 i
    let x1 : Nat → α := fun i => if i < g.GLOBAL_NFFT then y i else doa.x1 i
    let xy := g.gcc_phat x y g.GLOBAL_NFFT g.chunkSizeSamples_N
    let y2 := g.shift_np xy.2 g.GLOBAL_NFFT (g.DOA_HISTOGRAM_MAX_LAG + 1)
    match accumulateLag g.DOA_HISTOGRAM_TOT_NUM y2 doa.direction_of_arrival_histogram with
    | none => none
    | some hist =>
      some { direction_of_arrival_histogram := hist, x := xy.1, y := y2, x0 := x0, x1 := x1 }
  else none

/-- `totalChunksNo = round(((double)(framesPerBuffer - chunkSizeSamples_N) /
chunkMoveSamples_M) + 1.0)`, for a non-zero `chunkMoveSamples_M`. -/
def totalChunksNoOf (g : Globals α) (framesPerBuffer : Nat) : Int :=
  cRound ((((framesPerBuffer : Int) - (g.chunkSizeSamples_N : Int) : Int) : ℚ)
    / (g.chunkMoveSamples_M : ℚ) + 1)

/-- The direction-of-arrival part of the `if (!isEOS)` block: split the
channels of the samples starting `2 * chunkMoveSamples_M` frames before
`data` into `leftch` / `righch`, then run `doaWindow` for every
`doa_chunk_count < totalChunksNo`. `none`: no FFT object or channel buffers,
buffers shorter than `framesPerBuffer`, a zero `chunkMoveSamples_M`, or a
failing window. -/
def accumulateDoa (g : Globals α) (st : State α) (c : Chunk) (framesPerBuffer : Nat) :
    Option (State α) :=
  match st.recog_pointers.leftch, st.recog_pointers.righch with
  | some l, some r =>
    if framesPerBuffer ≤ l.length ∧ framesPerBuffer ≤ r.length ∧
        st.recog_pointers.fft_obj = true ∧ g.chunkMoveSamples_M ≠ 0 then
      let shift : Int := ((2 * g.chunkMoveSamples_M * g.GLOBAL_NUMBER_OF_CHANNELS : Nat) : Int)
      let data2 : Int → Int := fun i => c.data (i - shift)
      let leftch : List Int :=
        (List.range framesPerBuffer).map
            (fun chan_sel => data2 ((chan_sel * g.GLOBAL_NUMBER_OF_CHANNELS : Nat) : Int))
          ++ l.drop framesPerBuffer
      let righch : List Int :=
        (List.range framesPerBuffer).map
            (fun chan_sel => data2 ((chan_sel * g.GLOBAL_NUMBER_OF_CHANNELS + 1 : Nat) : Int))
          ++ r.drop framesPerBuffer
      let totalChunksNo := totalChunksNoOf g framesPerBuffer
      match (List.range totalChunksNo.toNat).foldl
          (fun (d : Option (DoaVars α)) (doa_chunk_count : Nat) =>
            match d with
            | none => none
            | some doa => doaWindow g leftch righch doa doa_chunk_count)
          (some st.doa) with
      | none => none
      | some doa =>
        some { st with
          doa := doa
          recog_pointers :=
            { st.recog_pointers with leftch := some leftch, righch := some righch } }
    else none
  | _, _ => none

/-- The `if (!isEOS)` block: one audio request, then with two channels the
direction-of-arrival accumulation. -/
def speechChunk (g : Globals α) (grpc_ok : Nat → Bool) (st : State α) (c : Chunk)
    (framesPerBuffer bytes_read : Nat) : Option (State α) :=
  match writeAudio grpc_ok st bytes_read with
  | none => none
  | some st1 =>
    if g.GLOBAL_NUMBER_OF_CHANNELS = 2 then accumulateDoa g st1 c framesPerBuffer
    else some st1

/-- The loop of the `if (isEOS)` block over the histogram:
`HIST_MAX_POS = HIST_MAX_VALUE = 0`, then for every `h <
DOA_HISTOGRAM_TOT_NUM` a strictly greater count replaces the pair. The result
is `(HIST_MAX_POS, HIST_MAX_VALUE)`; `none` when an index is outside the
histogram. -/
def histogramMode (hist : List Nat) (tot : Nat) : Option (Nat × Nat) :=
  (List.range tot).foldl
    (fun (acc : Option (Nat × Nat)) (h : Nat) =>
      match acc, hist[h]? with
      | some p, some count => if p.2 < count then some (h, count) else some p
      | _, _ => none)
    (some (0, 0))

/-- The angle computed and published for the lag `k = lags[HIST_MAX_POS]`:
`delta = -k * GLOBAL_SPEED_OF_SOUND / GLOBAL_SAMPLE_RATE`,
`dd = -asin(delta / GLOBAL_MIC_DISTANCE)`, `doa_result.angle = (float) -dd`
(the narrowing to `float` is the identity over exact values). -/
def doaAngle (g : Globals α) (k : α) : α :=
  let delta := -k * g.GLOBAL_SPEED_OF_SOUND / (g.GLOBAL_SAMPLE_RATE : α)
  let dd := -g.asin (delta / g.GLOBAL_MIC_DISTANCE)
  let angle := -dd
  angle

/-- The `if (isEOS)` block: with two channels take the histogram mode and
publish the angle on `doa_pub`; then `WritesDone()`, join the reader thread,
null the stream pointer and delete the context. `none`: an index outside the
histogram, a null stream pointer, or a thread that is not joinable. -/
def endOfSpeech (g : Globals α) (grpc_ok : Nat → Bool) (st : State α) : Option (State α) :=
  let published : Option (State α) :=
    if g.GLOBAL_NUMBER_OF_CHANNELS = 2 then
      match histogramMode st.doa.direction_of_arrival_histogram g.DOA_HISTOGRAM_TOT_NUM with
      | none => none
      | some p =>
        some { st with doa_pub := st.doa_pub ++ [{ angle := doaAngle g (g.lags p.1) }] }
    else some st
  match published with
  | none => none
  | some st1 =>
    match streamCall grpc_ok st1 StreamRequest.writesDone with
    | none => none
    | some st2 =>
      match st2.recog_pointers.m_thread with
      | none => none
      | some _ =>
        some { st2 with
          recog_pointers :=
            { st2.recog_pointers with m_thread := none, streamer := none, context_ptr := false } }

/-- The callback `speech_callback(data, readbyteSize, isSOS, isEOS, extradata)`:
prepare the audio, then the `isSOS`, `!isEOS` and `isEOS` blocks in this
order. `none` stands for an execution C++ leaves undefined or aborts. The
reader thread runs beside the callback; what it publishes and its reset of
the stream pointer are in `gResponseHandlerThread`, not among these steps. -/
def speech_callback (g : Globals α) (grpc_ok : Nat → Bool) (st : State α) (c : Chunk) :
    Option (State α) :=
  match prepareAudio g st c with
  | none => none
  | some (st0, bytes_read) =>
    let framesPerBuffer := framesPerBufferOf g c.readbyteSize
    let afterSOS : Option (State α) :=
      if c.isSOS then startOfSpeech g grpc_ok st0 framesPerBuffer bytes_read else some st0
    match afterSOS with
    | none => none
    | some st1 =>
      let afterChunk : Option (State α) :=
        if !c.isEOS then speechChunk g grpc_ok st1 c framesPerBuffer bytes_read else some st1
      match afterChunk with
      | none => none
      | some st2 => if c.isEOS then endOfSpeech g grpc_ok st2 else some st2

/-- The callback run over the chunks the voice-activity detector delivers, in
order. -/
def runChunks (g : Globals α) (grpc_ok : Nat → Bool) : State α → List Chunk → Option (State α)
  | st, [] => some st
  | st, c :: cs =>
    match speech_callback g grpc_ok st c with
    | none => none
    | some st1 => runChunks g grpc_ok st1 cs

/-- The state `main` hands to the detector: every pointer null, the language
in `lang`, nothing sent or published yet. -/
def initialState (lang : String) (doa : DoaVars α) : State α :=
  { recog_pointers :=
      { speech_p := false, streamer := none, context_ptr := false, lang := lang,
        m_thread := none, fft_obj := false, leftch := none, righch := none }
    google_ready_buffer := none
    doa := doa
    stream_calls := []
    streams_opened := 0
    words_pub := []
    sentences_pub := []
    doa_pub := []
    ros_error := [] }

end Callback

/-! ## Quantities used in the statements -/

/-- The samples the adaptation step leaves in `google_ready_buffer` for a
chunk, at a supported rate: the selected channel at 16 kHz, the decimated one
else. -/
def adaptedSamples {α : Type} (g : Globals α) (c : Chunk) : List Int :=
  if g.GLOBAL_SAMPLE_RATE = GOOGLE_STREAMING_CONFIG_SAMPLE_RATE then
    g.channel_selection_function c.data
      (c.readbyteSize / g.GLOBAL_NUMBER_OF_CHANNELS / sizeof_short)
  else
    g.decimation_function c.data (c.readbyteSize / g.GLOBAL_NUMBER_OF_CHANNELS / sizeof_short)

/-- The byte count `bytes_read` of the adaptation step for a chunk, at a
supported rate. -/
def adaptedBytes {α : Type} (g : Globals α) (c : Chunk) : Nat :=
  if g.GLOBAL_SAMPLE_RATE = GOOGLE_STREAMING_CONFIG_SAMPLE_RATE then
    c.readbyteSize / g.GLOBAL_NUMBER_OF_CHANNELS
  else c.readbyteSize / g.GLOBAL_NUMBER_OF_CHANNELS / g.dec_M

/-- The audio request that carries the adapted audio of a chunk. -/
def adaptedAudio {α : Type} (g : Globals α) (c : Chunk) : StreamRequest :=
  StreamRequest.audio_content (some (adaptedSamples g c)) (adaptedBytes g c)

/-- The sample rate is one of the two the adaptation step supports (with a
usable decimation factor at 48 kHz). -/
def supportedRate {α : Type} (g : Globals α) : Prop :=
  g.GLOBAL_SAMPLE_RATE = GOOGLE_STREAMING_CONFIG_SAMPLE_RATE ∨
    (g.GLOBAL_SAMPLE_RATE = 48000 ∧ g.dec_M ≠ 0)

/-- The requests of the calls issued on the recognition streams, in order. -/
def requestsOf {α : Type} (st : State α) : List StreamRequest :=
  st.stream_calls.map (fun call => call.request)

/-! ## Examples of inputs -/

/-- Three responses: an interim one, one with stability `0`, an interim one. -/
def sampleResponses : List (StreamingRecognizeResponse ℚ) :=
  [ { results := [{ alternatives := [{ transcript := "turn", confidence := 0 }], stability := 1 }] },
    { results := [{ alternatives := [{ transcript := "turn left", confidence := 1 }], stability := 0 }] },
    { results := [{ alternatives := [{ transcript := "turn left now", confidence := 1 }],
                    stability := 2 }] } ]

/-- A small configuration: the given sample rate and channel count, decimation
by 3, windows of 4 samples moved by 2, a histogram of three lags -1, 0, 1,
sound at 343 m/s and microphones 0.1 m apart. The header functions are given
simple stand-ins: channel selection copies the first channel, decimation
takes every third frame, the correlation stage passes its input through and
`reset_doa_vars` clears the histogram. -/
def sampleGlobals {α : Type} [LinearOrderedField α] (rate channels : Nat) (asin : α → α) :
    Globals α :=
  { GLOBAL_SAMPLE_RATE := rate
    GLOBAL_NUMBER_OF_CHANNELS := channels
    dec_M := 3
    chunkSizeSamples_N := 4
    chunkMoveSamples_M := 2
    GLOBAL_NFFT := 8
    DOA_HISTOGRAM_TOT_NUM := 3
    DOA_HISTOGRAM_MAX_LAG := 1
    GLOBAL_SPEED_OF_SOUND := 343
    GLOBAL_MIC_DISTANCE := 1 / 10
    lags := fun h => (h : α) - 1
    hamwin := fun _ => 1
    asin := asin
    channel_selection_function := fun data frames =>
      (List.range frames).map (fun i => data ((i * channels : Nat) : Int))
    decimation_function := fun data frames =>
      (List.range (frames / 3)).map (fun i => data ((3 * i * channels : Nat) : Int))
    reset_doa_vars := fun d => { d with direction_of_arrival_histogram := List.replicate 3 0 }
    gcc_phat := fun x y _ _ => (x, y)
    shift_np := fun y _ _ => y }

/-- Direction-of-arrival globals with the given histogram and cleared scratch
arrays. -/
def sampleDoa {α : Type} [LinearOrderedField α] (hist : List Nat) : DoaVars α :=
  { direction_of_arrival_histogram := hist
    x := fun _ => 0
    y := fun _ => 0
    x0 := fun _ => 0
    x1 := fun _ => 0 }

/-- A state in the middle of a segment opened by an onset chunk of 4 bytes:
stream 0 open with its reader thread joinable, the configuration and the two
onset audio requests issued, `google_ready_buffer` and the histogram as
given. -/
def midSegmentState {α : Type} [LinearOrderedField α] (buffer : Option (List Int))
    (hist : List Nat) : State α :=
  { recog_pointers :=
      { speech_p := true, streamer := some 0, context_ptr := true, lang := "en-EN",
        m_thread := some 0, fft_obj := true, leftch := some [0, 0], righch := some [0, 0] }
    google_ready_buffer := buffer
    doa := sampleDoa hist
    stream_calls :=
      [ { request := StreamRequest.streaming_config "en-EN" 16000 AudioEncoding.LINEAR16 true,
          ok := true },
        { request := StreamRequest.audio_content buffer 4, ok := true },
        { request := StreamRequest.audio_content buffer 4, ok := true } ]
    streams_opened := 1
    words_pub := []
    sentences_pub := []
    doa_pub := []
    ros_error := [] }

/-- An onset chunk of two mono frames `10, 11`. -/
def onsetChunk : Chunk :=
  { data := fun i => 10 + i, readbyteSize := 4, isSOS := true, isEOS := false }

/-- An interior chunk of two mono frames `20, 21`. -/
def interiorChunk : Chunk :=
  { data := fun i => 20 + i, readbyteSize := 4, isSOS := false, isEOS := false }

/-- An offset chunk of two mono frames `30, 31`. -/
def offsetChunk : Chunk :=
  { data := fun i => 30 + i, readbyteSize := 4, isSOS := false, isEOS := true }

/-- An interior chunk of five stereo frames (20 bytes). -/
def stereoChunk : Chunk :=
  { data := fun i => i, readbyteSize := 20, isSOS := false, isEOS := false }

/-- A state in the middle of a two-channel segment whose channel buffers were
allocated for chunks of `frames` frames. -/
def stereoSegmentState {α : Type} [LinearOrderedField α] (frames : Nat) : State α :=
  { midSegmentState (some [0, 0]) [0, 0, 0] with
    recog_pointers :=
      { speech_p := true, streamer := some 0, context_ptr := true, lang := "en-EN",
        m_thread := some 0, fft_obj := true, leftch := some (List.replicate frames 0),
        righch := some (List.replicate frames 0) } }

/-- The lag-domain correlation vector holding the listed values. -/
def correlationOf (values : List ℚ) : Nat → ℚ :=
  fun v => values.getD v 0

/-! ## The reader task: lemmas -/

section ReaderLemmas

variable {α : Type} [LinearOrderedField α]

theorem firstAlternative_some {r : StreamingRecognizeResponse α}
    {result : StreamingRecognitionResult α} {alternative : SpeechRecognitionAlternative α}
    (h : firstAlternative r = some (result, alternative)) :
    firstStabilityPositive r = decide (0 < result.stability) ∧
      firstTranscription r =
        { result := alternative.transcript, confidence := alternative.confidence } := by
  unfold firstAlternative at h
  unfold firstStabilityPositive firstTranscription
  cases hr : r.results with
  | nil => simp [hr] at h
  | cons res tl =>
    cases ha : res.alternatives with
    | nil => simp [hr, ha] at h
    | cons alt tl2 =>
      simp only [hr, ha, Option.some.injEq, Prod.mk.injEq] at h
      obtain ⟨h1, h2⟩ := h
      subst h1 h2
      simp [ha]

omit [LinearOrderedField α] in
theorem hasFirstAlternative_iff {r : StreamingRecognizeResponse α} :
    hasFirstAlternative r = true ↔ ∃ p, firstAlternative r = some p := by
  unfold hasFirstAlternative
  cases firstAlternative r <;> simp

theorem readLoop_words (checked : Bool) (ending : StreamEnd) :
    ∀ (rs : List (StreamingRecognizeResponse α)) (response : StreamingRecognizeResponse α)
      (words : List (SpeechResult α)),
      (∀ r ∈ rs, hasFirstAlternative r = true) →
      (readLoop checked ending rs response words).words_pub =
        words ++ (rs.filter firstStabilityPositive).map firstTranscription := by
  intro rs
  induction rs with
  | nil =>
    intro response words _
    cases ending with
    | raised => simp [readLoop, catchBlock]
    | finished =>
      cases hf : firstAlternative response with
      | none => cases checked <;> simp [readLoop, hf, accessFailure, catchBlock]
      | some p => simp [readLoop, hf]
  | cons r rest ih =>
    intro response words hwf
    obtain ⟨p, hp⟩ := hasFirstAlternative_iff.mp (hwf r (List.mem_cons_self r rest))
    obtain ⟨result, alternative⟩ := p
    obtain ⟨hs, ht⟩ := firstAlternative_some hp
    have hrest : ∀ r' ∈ rest, hasFirstAlternative r' = true :=
      fun r' hr' => hwf r' (List.mem_cons_of_mem r hr')
    by_cases hpos : 0 < result.stability
    · simp [readLoop, hp, hpos, ih _ _ hrest, List.filter_cons, hs, ht]
    · simp [readLoop, hp, hpos, ih _ _ hrest, List.filter_cons, hs]

theorem readLoop_raised (checked : Bool) :
    ∀ (rs : List (StreamingRecognizeResponse α)) (response : StreamingRecognizeResponse α)
      (words : List (SpeechResult α)),
      (∀ r ∈ rs, hasFirstAlternative r = true) →
      (readLoop checked StreamEnd.raised rs response words).sentences_pub =
          [{ result := "", confidence := 0 }] ∧
        (readLoop checked StreamEnd.raised rs response words).exit = ReaderExit.caught := by
  intro rs
  induction rs with
  | nil => intro response words _; simp [readLoop, catchBlock]
  | cons r rest ih =>
    intro response words hwf
    obtain ⟨p, hp⟩ := hasFirstAlternative_iff.mp (hwf r (List.mem_cons_self r rest))
    have hrest : ∀ r' ∈ rest, hasFirstAlternative r' = true :=
      fun r' hr' => hwf r' (List.mem_cons_of_mem r hr')
    by_cases hpos : 0 < p.1.stability
    · simp [readLoop, hp, hpos, ih _ _ hrest]
    · simp [readLoop, hp, hpos, ih _ _ hrest]

theorem readLoop_finished (checked : Bool) :
    ∀ (rs : List (StreamingRecognizeResponse α)) (response : StreamingRecognizeResponse α)
      (words : List (SpeechResult α)),
      (∀ r ∈ rs, hasFirstAlternative r = true) → hasFirstAlternative response = true →
      (readLoop checked StreamEnd.finished rs response words).sentences_pub =
          [firstTranscription (rs.getLast?.getD response)] ∧
        (readLoop checked StreamEnd.finished rs response words).exit = ReaderExit.completed := by
  intro rs
  induction rs with
  | nil =>
    intro response words _ hresp
    obtain ⟨p, hp⟩ := hasFirstAlternative_iff.mp hresp
    obtain ⟨_, ht⟩ := firstAlternative_some hp
    simp [readLoop, hp, ht]
  | cons r rest ih =>
    intro response words hwf _
    have hr := hwf r (List.mem_cons_self r rest)
    obtain ⟨p, hp⟩ := hasFirstAlternative_iff.mp hr
    have hrest : ∀ r' ∈ rest, hasFirstAlternative r' = true :=
      fun r' hr' => hwf r' (List.mem_cons_of_mem r hr')
    have hlast : (r :: rest).getLast?.getD response = rest.getLast?.getD r := by
      cases rest with
      | nil => simp
      | cons r2 rest2 =>
        rw [List.getLast?_cons_cons, List.getLast?_eq_getLast (r2 :: rest2) (by simp)]
        simp
    rw [hlast]
    by_cases hpos : 0 < p.1.stability
    · simp only [readLoop, hp, hpos, if_true]
      exact ih _ _ hrest hr
    · simp only [readLoop, hp, hpos, if_false]
      exact ih _ _ hrest hr

theorem readLoop_checked_one (ending : StreamEnd) :
    ∀ (rs : List (StreamingRecognizeResponse α)) (response : StreamingRecognizeResponse α)
      (words : List (SpeechResult α)),
      (readLoop true ending rs response words).sentences_pub.length = 1 := by
  intro rs
  induction rs with
  | nil =>
    intro response words
    cases ending with
    | raised => simp [readLoop, catchBlock]
    | finished =>
      cases hf : firstAlternative response with
      | none => simp [readLoop, hf, accessFailure, catchBlock]
      | some p => simp [readLoop, hf]
  | cons r rest ih =>
    intro response words
    cases hf : firstAlternative r with
    | none => simp [readLoop, hf, accessFailure, catchBlock]
    | some p =>
      by_cases hpos : 0 < p.1.stability
      · simp [readLoop, hf, hpos, ih]
      · simp [readLoop, hf, hpos, ih]

theorem readLoop_first_response (checked : Bool) (ending : StreamEnd)
    (r : StreamingRecognizeResponse α) (rest : List (StreamingRecognizeResponse α))
    (response : StreamingRecognizeResponse α) (words : List (SpeechResult α))
    (hr : hasFirstAlternative r = true) :
    ∃ words', readLoop checked ending (r :: rest) response words =
      readLoop checked ending rest r words' := by
  obtain ⟨p, hp⟩ := hasFirstAlternative_iff.mp hr
  by_cases hpos : 0 < p.1.stability
  · exact ⟨words ++ [{ result := p.2.transcript, confidence := p.2.confidence }],
      by simp only [readLoop, hp, hpos, if_true]⟩
  · exact ⟨words, by simp only [readLoop, hp, hpos, if_false]⟩

theorem readLoop_decode_failure (checked : Bool) (ending : StreamEnd) :
    ∀ (rs : List (StreamingRecognizeResponse α)) (response : StreamingRecognizeResponse α)
      (words : List (SpeechResult α)),
      (∃ r ∈ rs, hasFirstAlternative r = false) →
      (readLoop checked ending rs response words).sentences_pub =
          (if checked then [{ result := "", confidence := 0 }] else []) ∧
        (readLoop checked ending rs response words).exit =
          (if checked then ReaderExit.caught else ReaderExit.undefinedAccess) := by
  intro rs
  induction rs with
  | nil => intro response words hbad; obtain ⟨r, hr, _⟩ := hbad; cases hr
  | cons r rest ih =>
    intro response words hbad
    cases hf : firstAlternative r with
    | none => cases checked <;> simp [readLoop, hf, accessFailure, catchBlock]
    | some p =>
      have hr : hasFirstAlternative r = true := hasFirstAlternative_iff.mpr ⟨p, hf⟩
      have hrest : ∃ r' ∈ rest, hasFirstAlternative r' = false := by
        obtain ⟨r', hmem, hr'⟩ := hbad
        rcases List.mem_cons.mp hmem with heq | hin
        · rw [heq, hr] at hr'; cases hr'
        · exact ⟨r', hin, hr'⟩
      obtain ⟨words', hstep⟩ := readLoop_first_response checked ending r rest response words hr
      rw [hstep]
      exact ih r words' hrest

theorem readLoop_no_response (checked : Bool) (words : List (SpeechResult α)) :
    (readLoop checked StreamEnd.finished [] ({ results := [] } : StreamingRecognizeResponse α)
          words).sentences_pub =
        (if checked then [{ result := "", confidence := 0 }] else []) ∧
      (readLoop checked StreamEnd.finished [] ({ results := [] } : StreamingRecognizeResponse α)
          words).exit =
        (if checked then ReaderExit.caught else ReaderExit.undefinedAccess) := by
  cases checked <;> simp [readLoop, firstAlternative, accessFailure, catchBlock]

end ReaderLemmas

/-! ## The callback: lemmas -/

section CallbackLemmas

variable {α : Type} [LinearOrderedField α] [FloorRing α]

omit [LinearOrderedField α] [FloorRing α] in
theorem prepareAudio_frame {g : Globals α} {st st0 : State α} {c : Chunk} {b : Nat}
    (h : prepareAudio g st c = some (st0, b)) :
    st0.recog_pointers = st.recog_pointers ∧ st0.stream_calls = st.stream_calls ∧
      st0.streams_opened = st.streams_opened ∧ st0.words_pub = st.words_pub ∧
      st0.sentences_pub = st.sentences_pub ∧ st0.doa_pub = st.doa_pub ∧ st0.doa = st.doa := by
  unfold prepareAudio at h
  split_ifs at h <;> simp only [Option.some.injEq, Prod.mk.injEq] at h <;>
    obtain ⟨rfl, _⟩ := h <;> simp

omit [LinearOrderedField α] [FloorRing α] in
theorem streamCall_some {grpc_ok : Nat → Bool} {st : State α} {request : StreamRequest}
    {s : Nat} (h : st.recog_pointers.streamer = some s) :
    streamCall grpc_ok st request =
      some { st with
        stream_calls :=
          st.stream_calls ++ [{ request := request, ok := grpc_ok st.stream_calls.length }] } := by
  unfold streamCall
  rw [h]

omit [LinearOrderedField α] [FloorRing α] in
theorem streamCall_frame {grpc_ok : Nat → Bool} {st st' : State α} {request : StreamRequest}
    (h : streamCall grpc_ok st request = some st') :
    st' = { st with
        stream_calls :=
          st.stream_calls ++ [{ request := request, ok := grpc_ok st.stream_calls.length }] } := by
  unfold streamCall at h
  split at h
  · simp at h
  · simpa using h.symm

theorem set_audio_content_cases (google_ready_buffer : Option (List Int)) (bytes_read : Nat) :
    set_audio_content google_ready_buffer bytes_read =
        some (StreamRequest.audio_content google_ready_buffer bytes_read) ∨
      set_audio_content google_ready_buffer bytes_read = none := by
  unfold set_audio_content
  cases google_ready_buffer with
  | some b => exact Or.inl rfl
  | none =>
    by_cases hn : bytes_read = 0
    · left; simp [hn]
    · right; simp [hn]

omit [LinearOrderedField α] [FloorRing α] in
theorem writeAudio_buffer (grpc_ok : Nat → Bool) {st : State α} (bytes_read : Nat)
    {b : List Int} (hbuf : st.google_ready_buffer = some b) :
    writeAudio grpc_ok st bytes_read =
      streamCall grpc_ok st (StreamRequest.audio_content st.google_ready_buffer bytes_read) := by
  unfold writeAudio set_audio_content
  rw [hbuf]

omit [LinearOrderedField α] [FloorRing α] in
theorem writeAudio_frame {grpc_ok : Nat → Bool} {st st' : State α} {bytes_read : Nat}
    (h : writeAudio grpc_ok st bytes_read = some st') :
    streamCall grpc_ok st (StreamRequest.audio_content st.google_ready_buffer bytes_read) =
      some st' := by
  unfold writeAudio set_audio_content at h
  cases hb : st.google_ready_buffer with
  | some b => simpa [hb] using h
  | none =>
    by_cases hn : bytes_read = 0
    · simpa [hb, hn] using h
    · simp [hb, hn] at h

omit [LinearOrderedField α] [FloorRing α] in
theorem setupDoa_frame (g : Globals α) (st : State α) (framesPerBuffer : Nat) :
    (setupDoa g st framesPerBuffer).recog_pointers.m_thread = st.recog_pointers.m_thread ∧
      (setupDoa g st framesPerBuffer).recog_pointers.lang = st.recog_pointers.lang ∧
      (setupDoa g st framesPerBuffer).streams_opened = st.streams_opened ∧
      (setupDoa g st framesPerBuffer).stream_calls = st.stream_calls ∧
      (setupDoa g st framesPerBuffer).google_ready_buffer = st.google_ready_buffer ∧
      (setupDoa g st framesPerBuffer).sentences_pub = st.sentences_pub ∧
      (setupDoa g st framesPerBuffer).words_pub = st.words_pub ∧
      (setupDoa g st framesPerBuffer).doa_pub = st.doa_pub ∧
      (setupDoa g st framesPerBuffer).ros_error = st.ros_error := by
  unfold setupDoa
  split_ifs <;> simp

omit [LinearOrderedField α] [FloorRing α] in
theorem setupDoa_mono {g : Globals α} (st : State α) (framesPerBuffer : Nat)
    (hch : g.GLOBAL_NUMBER_OF_CHANNELS ≠ 2) : setupDoa g st framesPerBuffer = st := by
  unfold setupDoa
  simp [hch]

omit [LinearOrderedField α] [FloorRing α] in
theorem startOfSpeech_eq (g : Globals α) (grpc_ok : Nat → Bool) (st : State α)
    (framesPerBuffer bytes_read : Nat) (hth : st.recog_pointers.m_thread = none)
    (hreq : set_audio_content st.google_ready_buffer bytes_read =
      some (StreamRequest.audio_content st.google_ready_buffer bytes_read)) :
    startOfSpeech g grpc_ok st framesPerBuffer bytes_read =
      some { openStream (setupDoa g st framesPerBuffer) with
        recog_pointers :=
          { (openStream (setupDoa g st framesPerBuffer)).recog_pointers with
            m_thread := some st.streams_opened }
        stream_calls := st.stream_calls ++
          [ { request := StreamRequest.streaming_config st.recog_pointers.lang
                GOOGLE_STREAMING_CONFIG_SAMPLE_RATE AudioEncoding.LINEAR16 true,
              ok := grpc_ok st.stream_calls.length },
            { request := StreamRequest.audio_content st.google_ready_buffer bytes_read,
              ok := grpc_ok (st.stream_calls.length + 1) } ] } := by
  obtain ⟨h1, h2, h3, h4, h5, _⟩ := setupDoa_frame g st framesPerBuffer
  simp [startOfSpeech, writeAudio, streamCall, startReader, openStream, h1, h2, h3, h4, h5, hth,
    hreq]

omit [LinearOrderedField α] [FloorRing α] in
theorem startOfSpeech_raises (g : Globals α) (grpc_ok : Nat → Bool) (st : State α)
    (framesPerBuffer bytes_read : Nat)
    (hreq : set_audio_content st.google_ready_buffer bytes_read = none) :
    startOfSpeech g grpc_ok st framesPerBuffer bytes_read = none := by
  obtain ⟨h1, h2, h3, h4, h5, _⟩ := setupDoa_frame g st framesPerBuffer
  cases hth : st.recog_pointers.m_thread <;>
    simp [startOfSpeech, writeAudio, streamCall, startReader, openStream, h1, h2, h3, h4, h5,
      hth, hreq]

omit [LinearOrderedField α] [FloorRing α] in
theorem startOfSpeech_joinable (g : Globals α) (grpc_ok : Nat → Bool) (st : State α)
    (framesPerBuffer bytes_read : Nat) {t : Nat} (hth : st.recog_pointers.m_thread = some t) :
    startOfSpeech g grpc_ok st framesPerBuffer bytes_read = none := by
  obtain ⟨h1, _⟩ := setupDoa_frame g st framesPerBuffer
  simp [startOfSpeech, streamCall, startReader, openStream, h1, hth]

omit [LinearOrderedField α] [FloorRing α] in
theorem startOfSpeech_spec {g : Globals α} {grpc_ok : Nat → Bool} {st st' : State α}
    {framesPerBuffer bytes_read : Nat}
    (h : startOfSpeech g grpc_ok st framesPerBuffer bytes_read = some st') :
    st'.recog_pointers.m_thread = some st.streams_opened ∧
      st'.recog_pointers.streamer = some st.streams_opened ∧
      st'.sentences_pub = st.sentences_pub ∧ st'.words_pub = st.words_pub ∧
      st'.doa_pub = st.doa_pub ∧
      st'.google_ready_buffer = st.google_ready_buffer ∧
      st'.stream_calls = st.stream_calls ++
        [ { request := StreamRequest.streaming_config st.recog_pointers.lang
              GOOGLE_STREAMING_CONFIG_SAMPLE_RATE AudioEncoding.LINEAR16 true,
            ok := grpc_ok st.stream_calls.length },
          { request := StreamRequest.audio_content st.google_ready_buffer bytes_read,
            ok := grpc_ok (st.stream_calls.length + 1) } ] := by
  cases hth : st.recog_pointers.m_thread with
  | some t => rw [startOfSpeech_joinable g grpc_ok st _ _ hth] at h; simp at h
  | none =>
    rcases set_audio_content_cases st.google_ready_buffer bytes_read with hreq | hreq
    · rw [startOfSpeech_eq g grpc_ok st _ _ hth hreq] at h
      simp only [Option.some.injEq] at h
      subst h
      obtain ⟨_, _, h3, _, h5, h6, h7, h8, _⟩ := setupDoa_frame g st framesPerBuffer
      simp [openStream, h3, h5, h6, h7, h8]
    · rw [startOfSpeech_raises g grpc_ok st _ _ hreq] at h
      simp at h

theorem accumulateDoa_frame {g : Globals α} {st st' : State α} {c : Chunk} {framesPerBuffer : Nat}
    (h : accumulateDoa g st c framesPerBuffer = some st') :
    st'.recog_pointers.m_thread = st.recog_pointers.m_thread ∧
      st'.recog_pointers.streamer = st.recog_pointers.streamer ∧
      st'.sentences_pub = st.sentences_pub ∧ st'.words_pub = st.words_pub ∧
      st'.doa_pub = st.doa_pub ∧ st'.stream_calls = st.stream_calls ∧
      st'.google_ready_buffer = st.google_ready_buffer := by
  unfold accumulateDoa at h
  split at h
  · split_ifs at h
    dsimp only at h
    split at h
    · simp at h
    · simp only [Option.some.injEq] at h
      subst h
      simp
  · simp at h

theorem speechChunk_spec {g : Globals α} {grpc_ok : Nat → Bool} {st st' : State α} {c : Chunk}
    {framesPerBuffer bytes_read : Nat}
    (h : speechChunk g grpc_ok st c framesPerBuffer bytes_read = some st') :
    st'.recog_pointers.m_thread = st.recog_pointers.m_thread ∧
      st'.recog_pointers.streamer = st.recog_pointers.streamer ∧
      st'.sentences_pub = st.sentences_pub ∧ st'.words_pub = st.words_pub ∧
      st'.doa_pub = st.doa_pub ∧
      st'.stream_calls = st.stream_calls ++
        [ { request := StreamRequest.audio_content st.google_ready_buffer bytes_read,
            ok := grpc_ok st.stream_calls.length } ] := by
  unfold speechChunk at h
  split at h
  · simp at h
  · rename_i st1 hcall
    have h1 := streamCall_frame (writeAudio_frame hcall)
    split_ifs at h
    · obtain ⟨a, b, c', d, e, f, _⟩ := accumulateDoa_frame h
      rw [a, b, c', d, e, f, h1]
      simp
    · simp only [Option.some.injEq] at h
      subst h
      rw [h1]
      simp

theorem speechChunk_mono {g : Globals α} (grpc_ok : Nat → Bool) {st : State α} (c : Chunk)
    (framesPerBuffer bytes_read : Nat) {s : Nat} {b : List Int}
    (hch : g.GLOBAL_NUMBER_OF_CHANNELS ≠ 2)
    (hs : st.recog_pointers.streamer = some s) (hbuf : st.google_ready_buffer = some b) :
    speechChunk g grpc_ok st c framesPerBuffer bytes_read =
      some { st with
        stream_calls :=
          st.stream_calls ++
            [{ request := StreamRequest.audio_content st.google_ready_buffer bytes_read,
               ok := grpc_ok st.stream_calls.length }] } := by
  unfold speechChunk
  rw [writeAudio_buffer grpc_ok bytes_read hbuf, streamCall_some hs]
  simp [hch]

omit [LinearOrderedField α] [FloorRing α] in
theorem prepareAudio_supported {g : Globals α} (st : State α) (c : Chunk)
    (hch0 : g.GLOBAL_NUMBER_OF_CHANNELS ≠ 0) (hrate : supportedRate g) :
    prepareAudio g st c =
      some ({ st with google_ready_buffer := some (adaptedSamples g c) }, adaptedBytes g c) := by
  unfold prepareAudio adaptedSamples adaptedBytes framesPerBufferOf
  rcases hrate with h16 | ⟨h48, hdec⟩
  · simp [hch0, h16]
  · by_cases h16 : g.GLOBAL_SAMPLE_RATE = GOOGLE_STREAMING_CONFIG_SAMPLE_RATE
    · simp [hch0, h16]
    · simp [hch0, h48, hdec, GOOGLE_STREAMING_CONFIG_SAMPLE_RATE]

theorem speech_callback_onset {g : Globals α} (grpc_ok : Nat → Bool) (st : State α) {c : Chunk}
    (hch0 : g.GLOBAL_NUMBER_OF_CHANNELS ≠ 0) (hch2 : g.GLOBAL_NUMBER_OF_CHANNELS ≠ 2)
    (hrate : supportedRate g) (hsos : c.isSOS = true) (heos : c.isEOS = false)
    (hth : st.recog_pointers.m_thread = none) :
    ∃ st', speech_callback g grpc_ok st c = some st' ∧
      st'.recog_pointers.m_thread = some st.streams_opened ∧
      st'.recog_pointers.streamer = some st.streams_opened ∧
      requestsOf st' = requestsOf st ++
        [StreamRequest.streaming_config st.recog_pointers.lang
            GOOGLE_STREAMING_CONFIG_SAMPLE_RATE AudioEncoding.LINEAR16 true,
          adaptedAudio g c, adaptedAudio g c] := by
  unfold speech_callback
  rw [prepareAudio_supported st c hch0 hrate]
  simp only [hsos, heos, if_true, Bool.not_false, Bool.false_eq_true, if_false]
  have hth0 : ({ st with google_ready_buffer := some (adaptedSamples g c) } :
      State α).recog_pointers.m_thread = none := hth
  rw [startOfSpeech_eq g grpc_ok _ _ _ hth0 rfl, setupDoa_mono _ _ hch2]
  simp only []
  rw [speechChunk_mono grpc_ok _ _ _ (s := st.streams_opened) (b := adaptedSamples g c) hch2
    (by simp [openStream]) (by simp [openStream])]
  refine ⟨_, rfl, ?_, ?_, ?_⟩
  · simp [openStream]
  · simp [openStream]
  · simp [requestsOf, openStream, adaptedAudio]

theorem speech_callback_interior {g : Globals α} (grpc_ok : Nat → Bool) (st : State α) {c : Chunk}
    {s : Nat} (hch0 : g.GLOBAL_NUMBER_OF_CHANNELS ≠ 0) (hch2 : g.GLOBAL_NUMBER_OF_CHANNELS ≠ 2)
    (hrate : supportedRate g) (hsos : c.isSOS = false) (heos : c.isEOS = false)
    (hs : st.recog_pointers.streamer = some s) :
    ∃ st', speech_callback g grpc_ok st c = some st' ∧
      st'.recog_pointers.m_thread = st.recog_pointers.m_thread ∧
      st'.recog_pointers.streamer = some s ∧
      requestsOf st' = requestsOf st ++ [adaptedAudio g c] := by
  unfold speech_callback
  rw [prepareAudio_supported st c hch0 hrate]
  simp only [hsos, heos, if_true, Bool.not_false, Bool.false_eq_true, if_false]
  rw [speechChunk_mono grpc_ok _ _ _ (s := s) (b := adaptedSamples g c) hch2
    (by simpa using hs) rfl]
  refine ⟨_, rfl, ?_, ?_, ?_⟩
  · simp
  · simpa using hs
  · simp [requestsOf, adaptedAudio]

theorem speech_callback_offset {g : Globals α} (grpc_ok : Nat → Bool) (st : State α) {c : Chunk}
    {s t : Nat} (hch0 : g.GLOBAL_NUMBER_OF_CHANNELS ≠ 0) (hch2 : g.GLOBAL_NUMBER_OF_CHANNELS ≠ 2)
    (hrate : supportedRate g) (hsos : c.isSOS = false) (heos : c.isEOS = true)
    (hs : st.recog_pointers.streamer = some s) (hth : st.recog_pointers.m_thread = some t) :
    ∃ st', speech_callback g grpc_ok st c = some st' ∧
      st'.recog_pointers.m_thread = none ∧
      st'.recog_pointers.streamer = none ∧
      requestsOf st' = requestsOf st ++ [StreamRequest.writesDone] := by
  unfold speech_callback
  rw [prepareAudio_supported st c hch0 hrate]
  simp only [hsos, heos, if_true, Bool.not_true, Bool.false_eq_true, if_false]
  unfold endOfSpeech
  simp only [hch2, if_false]
  rw [streamCall_some (s := s) (by simpa using hs)]
  simp only [hth]
  refine ⟨_, rfl, ?_, ?_, ?_⟩
  · simp
  · simp
  · simp [requestsOf]

theorem runChunks_interior {g : Globals α} (grpc_ok : Nat → Bool)
    (hch0 : g.GLOBAL_NUMBER_OF_CHANNELS ≠ 0) (hch2 : g.GLOBAL_NUMBER_OF_CHANNELS ≠ 2)
    (hrate : supportedRate g) :
    ∀ (mids : List Chunk) (st : State α) (s : Nat),
      (∀ c ∈ mids, c.isSOS = false ∧ c.isEOS = false) →
      st.recog_pointers.streamer = some s →
      ∃ st', runChunks g grpc_ok st mids = some st' ∧
        st'.recog_pointers.m_thread = st.recog_pointers.m_thread ∧
        st'.recog_pointers.streamer = some s ∧
        requestsOf st' = requestsOf st ++ mids.map (adaptedAudio g) := by
  intro mids
  induction mids with
  | nil => intro st s _ hs; exact ⟨st, rfl, rfl, hs, by simp⟩
  | cons c rest ih =>
    intro st s hflags hs
    obtain ⟨hsos, heos⟩ := hflags c (List.mem_cons_self c rest)
    obtain ⟨st1, h1, hth1, hs1, hr1⟩ :=
      speech_callback_interior grpc_ok st hch0 hch2 hrate hsos heos hs
    obtain ⟨st2, h2, hth2, hs2, hr2⟩ :=
      ih st1 s (fun c' hc' => hflags c' (List.mem_cons_of_mem c hc')) hs1
    refine ⟨st2, ?_, ?_, hs2, ?_⟩
    · simp [runChunks, h1, h2]
    · rw [hth2, hth1]
    · rw [hr2, hr1]; simp

theorem runChunks_append {g : Globals α} (grpc_ok : Nat → Bool) :
    ∀ (cs ds : List Chunk) (st st1 : State α),
      runChunks g grpc_ok st cs = some st1 →
      runChunks g grpc_ok st (cs ++ ds) = runChunks g grpc_ok st1 ds := by
  intro cs
  induction cs with
  | nil => intro ds st st1 h; simp only [runChunks, Option.some.injEq] at h; subst h; rfl
  | cons c rest ih =>
    intro ds st st1 h
    simp only [runChunks, List.cons_append] at h ⊢
    cases hc : speech_callback g grpc_ok st c with
    | none => simp [hc] at h
    | some st2 =>
      simp only [hc] at h ⊢
      exact ih ds st2 st1 h

end CallbackLemmas

/-! ## Direction of arrival: lemmas -/

theorem histogramMode_invariant (hist : List Nat) :
    ∀ n, n ≤ hist.length →
      ∃ p v, histogramMode hist n = some (p, v) ∧
        (∀ j, j < n → hist.getD j 0 ≤ v) ∧
        ((v = 0 ∧ p = 0) ∨
          (0 < v ∧ p < n ∧ hist.getD p 0 = v ∧ ∀ j, j < p → hist.getD j 0 < v)) := by
  intro n
  induction n with
  | zero =>
    intro _
    exact ⟨0, 0, by simp [histogramMode], by simp, Or.inl ⟨rfl, rfl⟩⟩
  | succ n ih =>
    intro hn
    obtain ⟨p, v, hrun, hle, hcase⟩ := ih (Nat.le_of_succ_le hn)
    have hlt : n < hist.length := hn
    have hget : hist[n]? = some (hist.getD n 0) := by
      simp [List.getD, List.getElem?_eq_getElem hlt]
    unfold histogramMode at hrun ⊢
    rw [List.range_succ, List.foldl_append, hrun]
    simp only [List.foldl_cons, List.foldl_nil, hget]
    by_cases hv : v < hist.getD n 0
    · refine ⟨n, hist.getD n 0, if_pos hv, ?_, Or.inr ⟨by omega, by omega, rfl, ?_⟩⟩
      · intro j hj
        rcases Nat.lt_succ_iff_lt_or_eq.mp hj with hj' | rfl
        · exact le_of_lt (lt_of_le_of_lt (hle j hj') hv)
        · exact le_refl _
      · intro j hj
        exact lt_of_le_of_lt (hle j hj) hv
    · refine ⟨p, v, if_neg hv, ?_, ?_⟩
      · intro j hj
        rcases Nat.lt_succ_iff_lt_or_eq.mp hj with hj' | rfl
        · exact hle j hj'
        · omega
      · rcases hcase with h0 | ⟨h1, h2, h3, h4⟩
        · exact Or.inl h0
        · exact Or.inr ⟨h1, by omega, h3, h4⟩

theorem histogramMode_of_zero (hist : List Nat) (n : Nat) (hn : n ≤ hist.length)
    (hzero : ∀ j, j < n → hist.getD j 0 = 0) : histogramMode hist n = some (0, 0) := by
  obtain ⟨p, v, hrun, _, hcase⟩ := histogramMode_invariant hist n hn
  rcases hcase with ⟨rfl, rfl⟩ | ⟨h1, h2, h3, _⟩
  · exact hrun
  · rw [hzero p h2] at h3; omega

section DoaLemmas

variable {α : Type} [LinearOrderedField α] [FloorRing α]

theorem findMaxInY_invariant (y : Nat → α) :
    ∀ n, ((findMaxInY y n).1 = truncToInt (y 0) ∧ (findMaxInY y n).2 = y 0 ∧
          ∀ j, j < n → y j ≤ y 0) ∨
        (∃ m, m < n ∧ (findMaxInY y n).1 = (m : Int) ∧ (findMaxInY y n).2 = y m ∧
          y 0 < y m ∧ (∀ j, j < m → y j < y m) ∧ ∀ j, j < n → y j ≤ y m) := by
  intro n
  induction n with
  | zero => left; simp [findMaxInY]
  | succ n ih =>
    have hstep : findMaxInY y (n + 1) =
        if (findMaxInY y n).2 < y n then ((n : Int), y n) else findMaxInY y n := by
      unfold findMaxInY
      rw [List.range_succ, List.foldl_append]
      simp
    rw [hstep]
    rcases ih with ⟨h1, h2, h3⟩ | ⟨m, hm, h1, h2, h3, h4, h5⟩
    · by_cases hlt : (findMaxInY y n).2 < y n
      · right
        rw [h2] at hlt
        refine ⟨n, Nat.lt_succ_self n, by simp [h2, hlt], by simp [h2, hlt], hlt, ?_, ?_⟩
        · intro j hj; exact lt_of_le_of_lt (h3 j hj) hlt
        · intro j hj
          rcases Nat.lt_succ_iff_lt_or_eq.mp hj with hj' | rfl
          · exact le_of_lt (lt_of_le_of_lt (h3 j hj') hlt)
          · exact le_refl _
      · left
        simp only [hlt, if_false]
        refine ⟨h1, h2, ?_⟩
        intro j hj
        rcases Nat.lt_succ_iff_lt_or_eq.mp hj with hj' | rfl
        · exact h3 j hj'
        · rw [h2] at hlt; exact not_lt.mp hlt
    · by_cases hlt : (findMaxInY y n).2 < y n
      · right
        rw [h2] at hlt
        refine ⟨n, Nat.lt_succ_self n, by simp [h2, hlt], by simp [h2, hlt],
          lt_trans h3 hlt, ?_, ?_⟩
        · intro j hj; exact lt_of_le_of_lt (h5 j hj) hlt
        · intro j hj
          rcases Nat.lt_succ_iff_lt_or_eq.mp hj with hj' | rfl
          · exact le_of_lt (lt_of_le_of_lt (h5 j hj') hlt)
          · exact le_refl _
      · right
        simp only [hlt, if_false]
        refine ⟨m, Nat.lt_succ_of_lt hm, h1, h2, h3, h4, ?_⟩
        intro j hj
        rcases Nat.lt_succ_iff_lt_or_eq.mp hj with hj' | rfl
        · exact h5 j hj'
        · rw [h2] at hlt; exact not_lt.mp hlt

omit [FloorRing α] in
theorem endOfSpeech_stereo {g : Globals α} (grpc_ok : Nat → Bool) (st : State α) {s t p v : Nat}
    (hch : g.GLOBAL_NUMBER_OF_CHANNELS = 2)
    (hmode : histogramMode st.doa.direction_of_arrival_histogram g.DOA_HISTOGRAM_TOT_NUM =
      some (p, v))
    (hs : st.recog_pointers.streamer = some s) (hth : st.recog_pointers.m_thread = some t) :
    ∃ st', endOfSpeech g grpc_ok st = some st' ∧
      st'.doa_pub = st.doa_pub ++ [{ angle := doaAngle g (g.lags p) }] ∧
      requestsOf st' = requestsOf st ++ [StreamRequest.writesDone] ∧
      st'.recog_pointers.streamer = none ∧ st'.recog_pointers.m_thread = none := by
  unfold endOfSpeech
  simp only [hch, if_true, hmode]
  rw [streamCall_some (s := s) (by simpa using hs)]
  simp only [hth]
  exact ⟨_, rfl, by simp, by simp [requestsOf], by simp, by simp⟩

theorem speech_callback_offset_stereo {g : Globals α} (grpc_ok : Nat → Bool) (st : State α)
    {c : Chunk} {s t p v : Nat}
    (hch : g.GLOBAL_NUMBER_OF_CHANNELS = 2) (hrate : supportedRate g)
    (hsos : c.isSOS = false) (heos : c.isEOS = true)
    (hmode : histogramMode st.doa.direction_of_arrival_histogram g.DOA_HISTOGRAM_TOT_NUM =
      some (p, v))
    (hs : st.recog_pointers.streamer = some s) (hth : st.recog_pointers.m_thread = some t) :
    ∃ st', speech_callback g grpc_ok st c = some st' ∧
      st'.doa_pub = st.doa_pub ++ [{ angle := doaAngle g (g.lags p) }] := by
  have hch0 : g.GLOBAL_NUMBER_OF_CHANNELS ≠ 0 := by omega
  unfold speech_callback
  rw [prepareAudio_supported st c hch0 hrate]
  simp only [hsos, heos, if_true, Bool.not_true, Bool.false_eq_true, if_false]
  obtain ⟨st', h, hpub, _⟩ :=
    endOfSpeech_stereo grpc_ok
      ({ st with google_ready_buffer := some (adaptedSamples g c) } : State α)
      (s := s) (t := t) (p := p) (v := v) hch hmode hs hth
  exact ⟨st', h, hpub⟩

end DoaLemmas

/-! ## The callback: the recognition stream -/

/-- C1: for a segment `c1, mids, cn` (onset, interior chunks, offset) at a
supported rate and a channel count other than 2, started with no reader
thread pending, the callback runs to the end and the requests it adds to the
stream are the configuration, the adapted audio of `c1` TWICE (once from the
onset block, once from the block of every non-offset chunk), the adapted
audio of each interior chunk once, then `WritesDone`; this is not the
sequence with the onset audio written once. -/
theorem C1_onset_audio_is_written_twice {α : Type} [LinearOrderedField α] [FloorRing α]
    (g : Globals α) (grpc_ok : Nat → Bool) (st : State α) (c1 : Chunk) (mids : List Chunk)
    (cn : Chunk)
    (hch0 : g.GLOBAL_NUMBER_OF_CHANNELS ≠ 0) (hch2 : g.GLOBAL_NUMBER_OF_CHANNELS ≠ 2)
    (hrate : supportedRate g) (hth : st.recog_pointers.m_thread = none)
    (h1 : c1.isSOS = true ∧ c1.isEOS = false)
    (hmid : ∀ c ∈ mids, c.isSOS = false ∧ c.isEOS = false)
    (hn : cn.isSOS = false ∧ cn.isEOS = true) :
    ∃ st', runChunks g grpc_ok st (c1 :: (mids ++ [cn])) = some st' ∧
      requestsOf st' = requestsOf st ++
        (StreamRequest.streaming_config st.recog_pointers.lang
            GOOGLE_STREAMING_CONFIG_SAMPLE_RATE AudioEncoding.LINEAR16 true ::
          adaptedAudio g c1 :: adaptedAudio g c1 ::
          (mids.map (adaptedAudio g) ++ [StreamRequest.writesDone])) ∧
      requestsOf st' ≠ requestsOf st ++
        (StreamRequest.streaming_config st.recog_pointers.lang
            GOOGLE_STREAMING_CONFIG_SAMPLE_RATE AudioEncoding.LINEAR16 true ::
          adaptedAudio g c1 ::
          (mids.map (adaptedAudio g) ++ [StreamRequest.writesDone])) := by
  obtain ⟨st1, e1, ht1, hs1, hr1⟩ :=
    speech_callback_onset grpc_ok st hch0 hch2 hrate h1.1 h1.2 hth
  obtain ⟨st2, e2, ht2, hs2, hr2⟩ :=
    runChunks_interior grpc_ok hch0 hch2 hrate mids st1 st.streams_opened hmid hs1
  obtain ⟨st3, e3, _, _, hr3⟩ :=
    speech_callback_offset grpc_ok st2 hch0 hch2 hrate hn.1 hn.2 hs2 (ht2.trans ht1)
  have hreq : requestsOf st3 = requestsOf st ++
        (StreamRequest.streaming_config st.recog_pointers.lang
            GOOGLE_STREAMING_CONFIG_SAMPLE_RATE AudioEncoding.LINEAR16 true ::
          adaptedAudio g c1 :: adaptedAudio g c1 ::
          (mids.map (adaptedAudio g) ++ [StreamRequest.writesDone])) := by
    rw [hr3, hr2, hr1]; simp
  refine ⟨st3, ?_, hreq, ?_⟩
  · have hrun : runChunks g grpc_ok st1 (mids ++ [cn]) = some st3 := by
      rw [runChunks_append grpc_ok mids [cn] st1 st2 e2]
      simp [runChunks, e3]
    simp [runChunks, e1, hrun]
  · intro hbad
    have hlen := congrArg List.length (hreq.symm.trans hbad)
    simp at hlen

/-- C1 at a mono 16 kHz segment of three chunks with frames `10 11`, `20 21`,
`30 31`: the requests are the configuration, `10 11` twice, `20 21`, then
`WritesDone`. -/
theorem C1_onset_audio_witness :
    (runChunks (sampleGlobals 16000 1 (fun v : ℚ => v)) (fun _ => true)
        (initialState "en-EN" (sampleDoa [0, 0, 0]))
        [onsetChunk, interiorChunk, offsetChunk]).map requestsOf =
      some [StreamRequest.streaming_config "en-EN" 16000 AudioEncoding.LINEAR16 true,
        StreamRequest.audio_content (some [10, 11]) 4,
        StreamRequest.audio_content (some [10, 11]) 4,
        StreamRequest.audio_content (some [20, 21]) 4,
        StreamRequest.writesDone] := by
  obtain ⟨st', hrun, hreq, _⟩ :=
    C1_onset_audio_is_written_twice (sampleGlobals 16000 1 (fun v : ℚ => v)) (fun _ => true)
      (initialState "en-EN" (sampleDoa [0, 0, 0])) onsetChunk [interiorChunk] offsetChunk
      (by decide) (by decide) (Or.inl rfl) rfl (by decide) (by decide) (by decide)
  have hrun' : runChunks (sampleGlobals 16000 1 (fun v : ℚ => v)) (fun _ => true)
      (initialState "en-EN" (sampleDoa [0, 0, 0]))
      [onsetChunk, interiorChunk, offsetChunk] = some st' := hrun
  rw [hrun', Option.map_some', hreq]
  decide

/-! ## The reader task: results -/

/-- C2: for responses that each have a first result with a first alternative,
the messages the reader task publishes on `words_pub` are exactly the
responses whose first result has stability `> 0`, in arrival order, each as
the transcript and confidence of that result's first alternative; whatever
way the stream ends. -/
theorem C2_interim_is_positive_stability_subsequence {α : Type} [LinearOrderedField α]
    (checked : Bool) (rs : List (StreamingRecognizeResponse α)) (ending : StreamEnd)
    (hwf : ∀ r ∈ rs, hasFirstAlternative r = true) :
    (gResponseHandlerThread checked rs ending).words_pub =
      (rs.filter firstStabilityPositive).map firstTranscription := by
  unfold gResponseHandlerThread
  rw [readLoop_words checked ending rs _ _ hwf]
  simp

/-- C2 at three responses of stability 1, 0 and 2: the first and the third are
published as interim, the second is not. -/
theorem C2_interim_witness :
    (∀ r ∈ sampleResponses, hasFirstAlternative r = true) ∧
      (gResponseHandlerThread false sampleResponses StreamEnd.finished).words_pub =
        [{ result := "turn", confidence := 0 }, { result := "turn left now", confidence := 1 }] :=
  ⟨by decide,
   (C2_interim_is_positive_stability_subsequence false sampleResponses StreamEnd.finished
      (by decide)).trans (by decide)⟩

/-- C3: the message a run of the reader task publishes on `sentences_pub`,
for every run. For responses that each have a first result with a first
alternative: a read that raises gives exactly the empty transcript with
confidence 0, and a stream that ends after a non-empty sequence gives exactly
the transcript and confidence of the last response read. But a stream that
ends before any response, and a response without a first result or first
alternative, lead to `results(0)` / `alternatives(0)` out of range: exactly
one empty final is published only where the protocol library checks the
index, and none at all where it does not. -/
theorem C3_final_result_of_every_run {α : Type} [LinearOrderedField α]
    (checked : Bool) (rs : List (StreamingRecognizeResponse α)) :
    ((∀ r ∈ rs, hasFirstAlternative r = true) →
        (gResponseHandlerThread checked rs StreamEnd.raised).sentences_pub =
            [{ result := "", confidence := 0 }] ∧
          (∀ last, rs.getLast? = some last →
            (gResponseHandlerThread checked rs StreamEnd.finished).sentences_pub =
                [firstTranscription last] ∧
              (gResponseHandlerThread checked rs StreamEnd.finished).exit =
                ReaderExit.completed)) ∧
      ((gResponseHandlerThread checked ([] : List (StreamingRecognizeResponse α))
            StreamEnd.finished).sentences_pub =
          (if checked then [{ result := "", confidence := 0 }] else []) ∧
        (gResponseHandlerThread checked ([] : List (StreamingRecognizeResponse α))
            StreamEnd.finished).exit =
          (if checked then ReaderExit.caught else ReaderExit.undefinedAccess)) ∧
      (∀ ending : StreamEnd, (∃ r ∈ rs, hasFirstAlternative r = false) →
        (gResponseHandlerThread checked rs ending).sentences_pub =
            (if checked then [{ result := "", confidence := 0 }] else []) ∧
          (gResponseHandlerThread checked rs ending).exit =
            (if checked then ReaderExit.caught else ReaderExit.undefinedAccess)) := by
  refine ⟨?_, ?_, ?_⟩
  · intro hwf
    refine ⟨(readLoop_raised checked rs _ _ hwf).1, ?_⟩
    intro last hlast
    cases rs with
    | nil => simp at hlast
    | cons r rest =>
      have hr := hwf r (List.mem_cons_self r rest)
      have hrest : ∀ r' ∈ rest, hasFirstAlternative r' = true :=
        fun r' hr' => hwf r' (List.mem_cons_of_mem r hr')
      have hl : rest.getLast?.getD r = last := by
        cases rest with
        | nil => simpa using hlast
        | cons r2 rest2 =>
          rw [List.getLast?_cons_cons] at hlast
          simp [hlast]
      unfold gResponseHandlerThread
      obtain ⟨words', hstep⟩ :=
        readLoop_first_response checked StreamEnd.finished r rest { results := [] } [] hr
      rw [hstep, ← hl]
      exact readLoop_finished checked rest r words' hrest hr
  · exact readLoop_no_response checked []
  · intro ending hbad
    exact readLoop_decode_failure checked ending rs _ _ hbad

/-- C3 at concrete runs. After three responses with results the final is the
last response's first alternative when the stream ends and the empty one when
a read raises. With index checks off, a stream that ends before any response
publishes no final at all, and so does one that ends after a response without
results. -/
theorem C3_final_result_witness :
    (gResponseHandlerThread false sampleResponses StreamEnd.finished).sentences_pub =
        [{ result := "turn left now", confidence := 1 }] ∧
      (gResponseHandlerThread false sampleResponses StreamEnd.raised).sentences_pub =
        [{ result := "", confidence := 0 }] ∧
      (gResponseHandlerThread false ([] : List (StreamingRecognizeResponse ℚ))
          StreamEnd.finished).sentences_pub = [] ∧
      (gResponseHandlerThread false ([] : List (StreamingRecognizeResponse ℚ))
          StreamEnd.finished).exit = ReaderExit.undefinedAccess ∧
      (gResponseHandlerThread false (sampleResponses ++ [{ results := [] }])
          StreamEnd.finished).sentences_pub = [] :=
  ⟨(((C3_final_result_of_every_run false sampleResponses).1 (by decide)).2
      { results := [{ alternatives := [{ transcript := "turn left now", confidence := 1 }],
                      stability := 2 }] } (by decide)).1.trans (by decide),
   ((C3_final_result_of_every_run false sampleResponses).1 (by decide)).1,
   (C3_final_result_of_every_run false ([] : List (StreamingRecognizeResponse ℚ))).2.1.1,
   (C3_final_result_of_every_run false ([] : List (StreamingRecognizeResponse ℚ))).2.1.2,
   ((C3_final_result_of_every_run false (sampleResponses ++ [{ results := [] }])).2.2
      StreamEnd.finished ⟨{ results := [] }, by decide, by decide⟩).1⟩

/-! ## The callback: failures and the adaptation step -/

/-- C4 fails: on an onset chunk for which every call on the stream fails, the
callback returns with no message on `sentences_pub`, the reader thread
started and joinable, and the stream handle held; the three calls were all
issued. -/
theorem C4_failed_open_is_not_aborted :
    (speech_callback (sampleGlobals 16000 1 (fun v : ℚ => v)) (fun _ => false)
        (initialState "en-EN" (sampleDoa [0, 0, 0])) onsetChunk).map
      (fun st => (st.sentences_pub, st.recog_pointers.m_thread, st.recog_pointers.streamer,
        st.stream_calls.map (fun call => call.ok))) =
      some ([], some 0, some 0, [false, false, false]) := by
  decide

/-- C4 as amended: on an onset chunk the callback never examines the results
of its stream calls. Whatever they are, when the callback returns it has
published nothing on `sentences_pub`, the reader thread is started on the new
stream and the session holds that stream's handle; and with a supported rate,
a channel count other than 2 and no reader thread pending it does return. -/
theorem C4_onset_ignores_stream_failure {α : Type} [LinearOrderedField α] [FloorRing α]
    (g : Globals α) (grpc_ok : Nat → Bool) (st : State α) (c : Chunk)
    (hsos : c.isSOS = true) (heos : c.isEOS = false) :
    (∀ st', speech_callback g grpc_ok st c = some st' →
        st'.sentences_pub = st.sentences_pub ∧
        st'.recog_pointers.m_thread = some st.streams_opened ∧
        st'.recog_pointers.streamer = some st.streams_opened) ∧
      (g.GLOBAL_NUMBER_OF_CHANNELS ≠ 0 → g.GLOBAL_NUMBER_OF_CHANNELS ≠ 2 → supportedRate g →
        st.recog_pointers.m_thread = none →
        ∃ st', speech_callback g grpc_ok st c = some st') := by
  constructor
  · intro st' h
    unfold speech_callback at h
    cases hp : prepareAudio g st c with
    | none => simp [hp] at h
    | some p =>
      obtain ⟨st0, b⟩ := p
      obtain ⟨hrp, _, hso, _, hsent, _, _⟩ := prepareAudio_frame hp
      simp only [hp, hsos, heos, if_true, Bool.not_false] at h
      cases hs : startOfSpeech g grpc_ok st0 (framesPerBufferOf g c.readbyteSize) b with
      | none => simp [hs] at h
      | some st1 =>
        simp only [hs] at h
        obtain ⟨a1, a2, a3, _⟩ := startOfSpeech_spec hs
        cases hc : speechChunk g grpc_ok st1 c (framesPerBufferOf g c.readbyteSize) b with
        | none => simp [hc] at h
        | some st2 =>
          simp only [hc, Bool.false_eq_true, if_false, Option.some.injEq] at h
          subst h
          obtain ⟨b1, b2, b3, _⟩ := speechChunk_spec hc
          exact ⟨by rw [b3, a3, hsent], by rw [b1, a1, hso], by rw [b2, a2, hso]⟩
  · intro hch0 hch2 hrate hth
    obtain ⟨st', h, _⟩ := speech_callback_onset grpc_ok st hch0 hch2 hrate hsos heos hth
    exact ⟨st', h⟩

/-- C4 as amended, at the onset chunk of a mono 16 kHz segment whose stream
calls all fail: the callback returns, with nothing on `sentences_pub`, the
reader thread started and the handle of stream 0 held. -/
theorem C4_onset_ignores_stream_failure_witness :
    onsetChunk.isSOS = true ∧ onsetChunk.isEOS = false ∧
      ∃ st', speech_callback (sampleGlobals 16000 1 (fun v : ℚ => v)) (fun _ => false)
          (initialState "en-EN" (sampleDoa [0, 0, 0])) onsetChunk = some st' ∧
        st'.sentences_pub = [] ∧ st'.recog_pointers.m_thread = some 0 ∧
        st'.recog_pointers.streamer = some 0 := by
  have h := C4_onset_ignores_stream_failure (sampleGlobals 16000 1 (fun v : ℚ => v))
    (fun _ => false) (initialState "en-EN" (sampleDoa [0, 0, 0])) onsetChunk rfl rfl
  obtain ⟨st', hst'⟩ := h.2 (by decide) (by decide) (Or.inl rfl) rfl
  exact ⟨rfl, rfl, st', hst', h.1 st' hst'⟩

/-- C6 fails: a 48 kHz mono chunk of `F = 5` frames (`readbyteSize = 10`) gets
`bytes_read = 3`, not `2 * (5 / 3) = 2`. -/
theorem C6_bytes_read_of_five_frames :
    (prepareAudio (sampleGlobals 48000 1 (fun v : ℚ => v))
        (initialState "en-EN" (sampleDoa [0, 0, 0]))
        { data := fun i => i, readbyteSize := 5 * 1 * 2, isSOS := false, isEOS := false }).map
      Prod.snd = some 3 ∧ 3 ≠ 2 * (5 / 3) := by
  decide

/-- C6 as amended: for a chunk of `F` frames (`readbyteSize = F * channels *
2`), at 48 kHz with decimation factor 3 the adaptation step sets `bytes_read`
to `(2 * F) / 3`, which is `2 * (F / 3)` whenever `F mod 3` is not 2 (so for
every `F` divisible by 3); at 16 kHz it sets `bytes_read` to `2 * F`. In both
cases `framesPerBuffer` is `F`. -/
theorem C6_bytes_read {α : Type} [LinearOrderedField α] [FloorRing α]
    (g : Globals α) (st : State α) (c : Chunk) (F : Nat)
    (hch0 : g.GLOBAL_NUMBER_OF_CHANNELS ≠ 0)
    (hsize : c.readbyteSize = F * g.GLOBAL_NUMBER_OF_CHANNELS * 2) :
    framesPerBufferOf g c.readbyteSize = F ∧
      (g.GLOBAL_SAMPLE_RATE = 48000 → g.dec_M = 3 →
        (prepareAudio g st c).map Prod.snd = some (2 * F / 3) ∧
          (F % 3 ≠ 2 → 2 * F / 3 = 2 * (F / 3))) ∧
      (g.GLOBAL_SAMPLE_RATE = 16000 → (prepareAudio g st c).map Prod.snd = some (2 * F)) := by
  have hpos : 0 < g.GLOBAL_NUMBER_OF_CHANNELS := Nat.pos_of_ne_zero hch0
  have hdiv : c.readbyteSize / g.GLOBAL_NUMBER_OF_CHANNELS = 2 * F := by
    rw [hsize, Nat.mul_right_comm, Nat.mul_div_cancel _ hpos, Nat.mul_comm]
  refine ⟨?_, ?_, ?_⟩
  · unfold framesPerBufferOf sizeof_short
    rw [hdiv]; omega
  · intro h48 hdec
    constructor
    · unfold prepareAudio
      simp [hch0, h48, hdec, hdiv, GOOGLE_STREAMING_CONFIG_SAMPLE_RATE]
    · intro hmod; omega
  · intro h16
    unfold prepareAudio
    simp [hch0, h16, hdiv, GOOGLE_STREAMING_CONFIG_SAMPLE_RATE]

/-- C6 as amended, at a 48 kHz stereo chunk of 6 frames (24 bytes): 4 bytes,
two samples. -/
theorem C6_bytes_read_witness :
    (sampleGlobals 48000 2 (fun v : ℚ => v)).GLOBAL_NUMBER_OF_CHANNELS ≠ 0 ∧
      (prepareAudio (sampleGlobals 48000 2 (fun v : ℚ => v))
          (initialState "en-EN" (sampleDoa [0, 0, 0]))
          { data := fun i => i, readbyteSize := 24, isSOS := false, isEOS := false }).map
        Prod.snd = some 4 :=
  ⟨by decide,
   ((C6_bytes_read (sampleGlobals 48000 2 (fun v : ℚ => v))
      (initialState "en-EN" (sampleDoa [0, 0, 0]))
      { data := fun i => i, readbyteSize := 24, isSOS := false, isEOS := false } 6
      (by decide) rfl).2.1 rfl rfl).1⟩

/-! ## The callback: direction of arrival -/

/-- C7: at the offset chunk of a two-channel segment, when the histogram has
at least one non-zero count, the callback publishes the angle of the lag of a
bin `p` whose count is maximal and strictly greater than the count of every
bin of lower index: the mode, the lowest-index one among equal counts. -/
theorem C7_bearing_bin_is_lowest_mode {α : Type} [LinearOrderedField α] [FloorRing α]
    (g : Globals α) (grpc_ok : Nat → Bool) (st : State α) (c : Chunk) (s t : Nat)
    (hch : g.GLOBAL_NUMBER_OF_CHANNELS = 2) (hrate : supportedRate g)
    (hsos : c.isSOS = false) (heos : c.isEOS = true)
    (hs : st.recog_pointers.streamer = some s) (hth : st.recog_pointers.m_thread = some t)
    (hlen : g.DOA_HISTOGRAM_TOT_NUM ≤ st.doa.direction_of_arrival_histogram.length)
    (hne : ∃ i, i < g.DOA_HISTOGRAM_TOT_NUM ∧
      st.doa.direction_of_arrival_histogram.getD i 0 ≠ 0) :
    ∃ st' p, speech_callback g grpc_ok st c = some st' ∧
      st'.doa_pub = st.doa_pub ++ [{ angle := doaAngle g (g.lags p) }] ∧
      p < g.DOA_HISTOGRAM_TOT_NUM ∧
      (∀ j, j < g.DOA_HISTOGRAM_TOT_NUM →
        st.doa.direction_of_arrival_histogram.getD j 0 ≤
          st.doa.direction_of_arrival_histogram.getD p 0) ∧
      (∀ j, j < p →
        st.doa.direction_of_arrival_histogram.getD j 0 <
          st.doa.direction_of_arrival_histogram.getD p 0) := by
  obtain ⟨p, v, hmode, hle, hcase⟩ :=
    histogramMode_invariant st.doa.direction_of_arrival_histogram g.DOA_HISTOGRAM_TOT_NUM hlen
  obtain ⟨st', hrun, hpub⟩ :=
    speech_callback_offset_stereo grpc_ok st hch hrate hsos heos hmode hs hth
  obtain ⟨i, hi, hi0⟩ := hne
  rcases hcase with ⟨hv, _⟩ | ⟨_, hp, hpv, hfirst⟩
  · have := hle i hi
    omega
  · refine ⟨st', p, hrun, hpub, hp, ?_, ?_⟩
    · intro j hj; rw [hpv]; exact hle j hj
    · intro j hj; rw [hpv]; exact hfirst j hj

/-- C7 at the histogram `2, 5, 5`: the angle published is that of bin 1. -/
theorem C7_bearing_bin_witness :
    ∃ st', speech_callback (sampleGlobals 16000 2 Real.arcsin) (fun _ => true)
        (midSegmentState (some [0, 0]) [2, 5, 5]) offsetChunk = some st' ∧
      st'.doa_pub =
        [{ angle := doaAngle (sampleGlobals 16000 2 Real.arcsin)
            ((sampleGlobals 16000 2 Real.arcsin).lags 1) }] := by
  obtain ⟨st', p, hrun, hpub, hp, hmax, hfirst⟩ :=
    C7_bearing_bin_is_lowest_mode (sampleGlobals 16000 2 Real.arcsin) (fun _ => true)
      (midSegmentState (some [0, 0]) [2, 5, 5]) offsetChunk 0 0 rfl (Or.inl rfl) rfl rfl rfl rfl
      (by decide) ⟨0, by decide, by decide⟩
  have hp3 : p < 3 := hp
  have h1 := hmax 1 (by decide)
  have hp1 : p = 1 := by
    interval_cases p
    · exact absurd h1 (by decide)
    · rfl
    · exact absurd (hfirst 1 (by decide)) (by decide)
  subst hp1
  exact ⟨st', hrun, hpub⟩

/-- C8 fails: at the offset chunk of a two-channel segment whose histogram is
`0, 0, 0`, the callback publishes an angle all the same, the one of the lag of
bin 0 (here lag -1, angle `asin(343 / 1600)`). -/
theorem C8_empty_histogram_publishes_an_angle :
    ∃ st', speech_callback (sampleGlobals 16000 2 Real.arcsin) (fun _ => true)
        (midSegmentState (some [0, 0]) [0, 0, 0]) offsetChunk = some st' ∧
      st'.doa_pub = [{ angle := Real.arcsin (343 / 1600) }] := by
  obtain ⟨st', hrun, hpub⟩ :=
    speech_callback_offset_stereo (g := sampleGlobals 16000 2 Real.arcsin) (fun _ => true)
      (midSegmentState (some [0, 0]) [0, 0, 0]) (c := offsetChunk) (s := 0) (t := 0)
      (p := 0) (v := 0) rfl (Or.inl rfl) rfl rfl (by decide) rfl rfl
  refine ⟨st', hrun, ?_⟩
  rw [hpub]
  norm_num [midSegmentState, doaAngle, sampleGlobals]

/-- C8 as amended: at the offset chunk of a two-channel segment, if every bin
of the histogram is 0 the mode search keeps bin 0 and the callback publishes
one `DOAResult`, with the angle of the lag `lags[0]`. -/
theorem C8_empty_histogram_publishes_bin_zero {α : Type} [LinearOrderedField α] [FloorRing α]
    (g : Globals α) (grpc_ok : Nat → Bool) (st : State α) (c : Chunk) (s t : Nat)
    (hch : g.GLOBAL_NUMBER_OF_CHANNELS = 2) (hrate : supportedRate g)
    (hsos : c.isSOS = false) (heos : c.isEOS = true)
    (hs : st.recog_pointers.streamer = some s) (hth : st.recog_pointers.m_thread = some t)
    (hlen : g.DOA_HISTOGRAM_TOT_NUM ≤ st.doa.direction_of_arrival_histogram.length)
    (hzero : ∀ j, j < g.DOA_HISTOGRAM_TOT_NUM →
      st.doa.direction_of_arrival_histogram.getD j 0 = 0) :
    ∃ st', speech_callback g grpc_ok st c = some st' ∧
      st'.doa_pub = st.doa_pub ++ [{ angle := doaAngle g (g.lags 0) }] :=
  speech_callback_offset_stereo grpc_ok st hch hrate hsos heos
    (histogramMode_of_zero _ _ hlen hzero) hs hth

/-- C8 as amended, at the histogram `0, 0, 0`. -/
theorem C8_empty_histogram_witness :
    ∃ st', speech_callback (sampleGlobals 16000 2 Real.arcsin) (fun _ => true)
        (midSegmentState (some [0, 0]) [0, 0, 0]) offsetChunk = some st' ∧
      st'.doa_pub.length = 1 := by
  obtain ⟨st', hrun, hpub⟩ :=
    C8_empty_histogram_publishes_bin_zero (sampleGlobals 16000 2 Real.arcsin) (fun _ => true)
      (midSegmentState (some [0, 0]) [0, 0, 0]) offsetChunk 0 0 rfl (Or.inl rfl) rfl rfl rfl rfl
      (by decide) (by decide)
  exact ⟨st', hrun, by rw [hpub]; rfl⟩

/-- C9 fails: with the histogram `0, 0, 1` the mode lag is `k = 1`; at 16 kHz,
343 m/s and 0.1 m the callback publishes `asin(-343 / 1600)`, which is not
`-asin(delay * 343 / 0.1)` for `delay = -1 / 16000` but its negation. -/
theorem C9_published_angle_has_the_other_sign :
    ∃ st', speech_callback (sampleGlobals 16000 2 Real.arcsin) (fun _ => true)
        (midSegmentState (some [0, 0]) [0, 0, 1]) offsetChunk = some st' ∧
      st'.doa_pub = [{ angle := Real.arcsin (-(343 / 1600)) }] ∧
      Real.arcsin (-(343 / 1600)) ≠ -Real.arcsin (-1 / 16000 * 343 / (1 / 10)) := by
  obtain ⟨st', hrun, hpub⟩ :=
    speech_callback_offset_stereo (g := sampleGlobals 16000 2 Real.arcsin) (fun _ => true)
      (midSegmentState (some [0, 0]) [0, 0, 1]) (c := offsetChunk) (s := 0) (t := 0)
      (p := 2) (v := 1) rfl (Or.inl rfl) rfl rfl (by decide) rfl rfl
  refine ⟨st', hrun, ?_, ?_⟩
  · rw [hpub]
    norm_num [midSegmentState, doaAngle, sampleGlobals]
  · have hpos : 0 < Real.arcsin (343 / 1600) := Real.arcsin_pos.mpr (by norm_num)
    have h1 : Real.arcsin (-(343 / 1600)) = -Real.arcsin (343 / 1600) := Real.arcsin_neg _
    have h2 : (-1 / 16000 * 343 / (1 / 10) : ℝ) = -(343 / 1600) := by norm_num
    rw [h2, h1]
    intro h
    linarith

/-- C9 as amended: for the mode lag `k = lags[HIST_MAX_POS]` selected at the
offset chunk of a two-channel segment, over the exact reals the angle
published is `asin(delay * speed_of_sound / mic_distance)` with
`delay = -k / sample_rate`, the negation of `-asin(...)` (which the callback
only logs); a mode lag of 0 publishes the angle 0. -/
theorem C9_published_angle (g : Globals ℝ) (grpc_ok : Nat → Bool) (st : State ℝ) (c : Chunk)
    (s t : Nat) (hasin : g.asin = Real.arcsin)
    (hch : g.GLOBAL_NUMBER_OF_CHANNELS = 2) (hrate : supportedRate g)
    (hsos : c.isSOS = false) (heos : c.isEOS = true)
    (hs : st.recog_pointers.streamer = some s) (hth : st.recog_pointers.m_thread = some t)
    (hlen : g.DOA_HISTOGRAM_TOT_NUM ≤ st.doa.direction_of_arrival_histogram.length) :
    ∃ st' p v,
      histogramMode st.doa.direction_of_arrival_histogram g.DOA_HISTOGRAM_TOT_NUM =
        some (p, v) ∧
      speech_callback g grpc_ok st c = some st' ∧
      st'.doa_pub = st.doa_pub ++
        [{ angle := Real.arcsin (-(g.lags p) / (g.GLOBAL_SAMPLE_RATE : ℝ) *
            g.GLOBAL_SPEED_OF_SOUND / g.GLOBAL_MIC_DISTANCE) }] ∧
      (g.lags p = 0 → st'.doa_pub = st.doa_pub ++ [{ angle := 0 }]) := by
  obtain ⟨p, v, hmode, _, _⟩ :=
    histogramMode_invariant st.doa.direction_of_arrival_histogram g.DOA_HISTOGRAM_TOT_NUM hlen
  obtain ⟨st', hrun, hpub⟩ :=
    speech_callback_offset_stereo grpc_ok st hch hrate hsos heos hmode hs hth
  have hangle : doaAngle g (g.lags p) =
      Real.arcsin (-(g.lags p) / (g.GLOBAL_SAMPLE_RATE : ℝ) *
        g.GLOBAL_SPEED_OF_SOUND / g.GLOBAL_MIC_DISTANCE) := by
    unfold doaAngle
    simp only [hasin, neg_neg]
    congr 1
    ring
  refine ⟨st', p, v, hmode, hrun, by rw [hpub, hangle], ?_⟩
  intro hk
  rw [hpub, hangle, hk]
  simp

/-- C9 as amended, at the histogram `0, 0, 1` (mode lag 1): the angle
published is `asin(-1 / 16000 * 343 / 0.1)`. -/
theorem C9_published_angle_witness :
    ∃ st', speech_callback (sampleGlobals 16000 2 Real.arcsin) (fun _ => true)
        (midSegmentState (some [0, 0]) [0, 0, 1]) offsetChunk = some st' ∧
      st'.doa_pub = [{ angle := Real.arcsin (-1 / 16000 * 343 / (1 / 10)) }] := by
  obtain ⟨st', p, v, hmode, hrun, hpub, _⟩ :=
    C9_published_angle (sampleGlobals 16000 2 Real.arcsin) (fun _ => true)
      (midSegmentState (some [0, 0]) [0, 0, 1]) offsetChunk 0 0 rfl rfl (Or.inl rfl) rfl rfl
      rfl rfl (by decide)
  have hmode2 : histogramMode [0, 0, 1] 3 = some (2, 1) := by decide
  have hp : p = 2 := by
    have h := hmode.symm.trans hmode2
    simp only [Option.some.injEq, Prod.mk.injEq] at h
    exact h.1
  subst hp
  refine ⟨st', hrun, ?_⟩
  rw [hpub]
  norm_num [midSegmentState, sampleGlobals]

/-- C10: when no entry of the correlation vector `y` is greater than `y[0]`
(the greatest value is at index 0), the search leaves `HIST_MAX_POS` at its
initial value, which is `y[0]` converted to an integer and not the index 0;
the bin incremented is the one of that number (or none when it lies outside
the histogram). When some entry is greater than `y[0]`, the bin incremented
is the first index `m` at which `y` is greatest. -/
theorem C10_greatest_at_index_zero {α : Type} [LinearOrderedField α] [FloorRing α]
    (tot : Nat) (y : Nat → α) (hist : List Nat) :
    ((∀ v, v < tot → y v ≤ y 0) →
        accumulateLag tot y hist = incrementBin hist (truncToInt (y 0))) ∧
      (∀ m, m < tot → y 0 < y m → (∀ j, j < m → y j < y m) → (∀ j, j < tot → y j ≤ y m) →
        accumulateLag tot y hist = incrementBin hist (m : Int)) := by
  unfold accumulateLag
  constructor
  · intro hmax
    rcases findMaxInY_invariant y tot with ⟨h1, _, _⟩ | ⟨m, hm, _, _, h3, _, _⟩
    · rw [h1]
    · exact absurd (hmax m hm) (not_le.mpr h3)
  · intro m hm h0 hfirst hmax
    rcases findMaxInY_invariant y tot with ⟨_, _, h3⟩ | ⟨m', hm', h1, _, _, hfirst', hmax'⟩
    · exact absurd (h3 m hm) (not_le.mpr h0)
    · have heq : m' = m := by
        rcases Nat.lt_trichotomy m' m with hlt | heq | hgt
        · exact absurd (hmax' m hm) (not_le.mpr (hfirst m' hlt))
        · exact heq
        · exact absurd (hmax m' hm') (not_le.mpr (hfirst' m hgt))
      rw [h1, heq]

/-- C10 at `y = 2, 1, 0` and an empty histogram of three bins: bin 2 is
incremented, not bin 0; at `y = 5, 1, 0` no bin of the histogram is. -/
theorem C10_greatest_at_index_zero_witness :
    (∀ v, v < 3 → correlationOf [2, 1, 0] v ≤ correlationOf [2, 1, 0] 0) ∧
      accumulateLag 3 (correlationOf [2, 1, 0]) [0, 0, 0] = some [0, 0, 1] ∧
      accumulateLag 3 (correlationOf [5, 1, 0]) [0, 0, 0] = none :=
  ⟨by decide,
   ((C10_greatest_at_index_zero 3 (correlationOf [2, 1, 0]) [0, 0, 0]).1 (by decide)).trans
     (by decide),
   by decide⟩

/-! ## Direction of arrival: the analysis windows -/

theorem halfRound_quotient (a M : Nat) (hM : 0 < M) :
    (2 * a + 3 * M) / (2 * M) = a / M + 1 + (if M ≤ 2 * (a % M) then 1 else 0) := by
  have hdecomp : 2 * a + 3 * M = (2 * (a % M) + M) + 2 * M * (a / M + 1) := by
    have h := Nat.div_add_mod a M
    have h2 : 2 * M * (a / M + 1) = 2 * (M * (a / M)) + 2 * M := by ring
    rw [h2]
    omega
  have hr : a % M < M := Nat.mod_lt a hM
  rw [hdecomp, Nat.add_mul_div_left _ _ (by omega : 0 < 2 * M)]
  by_cases hhalf : M ≤ 2 * (a % M)
  · have h1 : (2 * (a % M) + M) / (2 * M) = 1 :=
      Nat.div_eq_of_lt_le (by omega) (by omega)
    rw [h1, if_pos hhalf]; omega
  · have h0 : (2 * (a % M) + M) / (2 * M) = 0 := Nat.div_eq_of_lt (by omega)
    rw [h0, if_neg hhalf]; omega

theorem totalChunksNoOf_eq {α : Type} (g : Globals α) (framesPerBuffer : Nat)
    (hM : 0 < g.chunkMoveSamples_M) (hN : g.chunkSizeSamples_N ≤ framesPerBuffer) :
    totalChunksNoOf g framesPerBuffer =
      (((framesPerBuffer - g.chunkSizeSamples_N) / g.chunkMoveSamples_M + 1 +
        (if g.chunkMoveSamples_M ≤
            2 * ((framesPerBuffer - g.chunkSizeSamples_N) % g.chunkMoveSamples_M)
          then 1 else 0) : Nat) : Int) := by
  unfold totalChunksNoOf cRound
  have hcast : ((framesPerBuffer : Int) - (g.chunkSizeSamples_N : Int) : Int) =
      ((framesPerBuffer - g.chunkSizeSamples_N : Nat) : Int) := by omega
  rw [hcast]
  set a := framesPerBuffer - g.chunkSizeSamples_N with ha
  set M := g.chunkMoveSamples_M with hMdef
  have hMq : (0 : ℚ) < (M : ℚ) := by exact_mod_cast hM
  have hnonneg : (0 : ℚ) ≤ (((a : Nat) : Int) : ℚ) / (M : ℚ) + 1 := by positivity
  rw [if_pos hnonneg]
  have hrew : (((a : Nat) : Int) : ℚ) / (M : ℚ) + 1 + 1 / 2 =
      ((2 * a + 3 * M : Nat) : ℚ) / ((2 * M : Nat) : ℚ) := by
    push_cast
    field_simp
    ring
  rw [hrew, Rat.floor_natCast_div_natCast]
  exact_mod_cast halfRound_quotient a M hM

theorem lastWindow_start {α : Type} (g : Globals α) (framesPerBuffer : Nat)
    (hM : 0 < g.chunkMoveSamples_M) (hN : g.chunkSizeSamples_N ≤ framesPerBuffer) :
    (framesPerBuffer - g.chunkSizeSamples_N) / g.chunkMoveSamples_M * g.chunkMoveSamples_M +
        g.chunkSizeSamples_N ≤ framesPerBuffer ∧
      framesPerBuffer <
        ((framesPerBuffer - g.chunkSizeSamples_N) / g.chunkMoveSamples_M + 1) *
          g.chunkMoveSamples_M + g.chunkSizeSamples_N := by
  have h := Nat.div_add_mod (framesPerBuffer - g.chunkSizeSamples_N) g.chunkMoveSamples_M
  have hr := Nat.mod_lt (framesPerBuffer - g.chunkSizeSamples_N) hM
  rw [Nat.mul_comm] at h
  rw [Nat.add_mul, Nat.one_mul]
  constructor <;> omega

section WindowLemmas

variable {α : Type} [LinearOrderedField α] [FloorRing α]

theorem doaWindow_overread (g : Globals α) (leftch righch : List Int) (doa : DoaVars α)
    (doa_chunk_count : Nat)
    (hover : leftch.length < doa_chunk_count * g.chunkMoveSamples_M + g.chunkSizeSamples_N) :
    doaWindow g leftch righch doa doa_chunk_count = none := by
  unfold doaWindow
  simp only []
  rw [if_neg]
  intro hall
  omega

theorem windows_overread (g : Globals α) (leftch righch : List Int) (doa : DoaVars α)
    (total : Nat) (hpos : 0 < total)
    (hover : leftch.length < (total - 1) * g.chunkMoveSamples_M + g.chunkSizeSamples_N) :
    (List.range total).foldl
        (fun (d : Option (DoaVars α)) (doa_chunk_count : Nat) =>
          match d with
          | none => none
          | some doa => doaWindow g leftch righch doa doa_chunk_count)
        (some doa) = none := by
  obtain ⟨k, rfl⟩ : ∃ k, total = k + 1 := ⟨total - 1, by omega⟩
  rw [List.range_succ, List.foldl_append]
  simp only [List.foldl_cons, List.foldl_nil]
  split
  · rfl
  · exact doaWindow_overread g leftch righch _ k (by simpa using hover)

theorem accumulateDoa_overread (g : Globals α) (st : State α) (c : Chunk) (framesPerBuffer : Nat)
    {l : List Int} (hl : st.recog_pointers.leftch = some l) (hlen : l.length = framesPerBuffer)
    (hM : 0 < g.chunkMoveSamples_M) (hN : g.chunkSizeSamples_N ≤ framesPerBuffer)
    (hhalf : g.chunkMoveSamples_M ≤
      2 * ((framesPerBuffer - g.chunkSizeSamples_N) % g.chunkMoveSamples_M)) :
    accumulateDoa g st c framesPerBuffer = none := by
  unfold accumulateDoa
  rw [hl]
  cases hr : st.recog_pointers.righch with
  | none => rfl
  | some r =>
    simp only []
    split_ifs with hcond
    · rw [totalChunksNoOf_eq g framesPerBuffer hM hN, if_pos hhalf, Int.toNat_ofNat]
      have h2 := (lastWindow_start g framesPerBuffer hM hN).2
      generalize (framesPerBuffer - g.chunkSizeSamples_N) / g.chunkMoveSamples_M = q at h2 ⊢
      rw [windows_overread]
      · omega
      · simp only [List.length_append, List.length_map, List.length_range, List.length_drop, hlen]
        have hsub : q + 1 + 1 - 1 = q + 1 := by omega
        rw [hsub]
        omega
    · rfl

theorem speech_callback_overread (g : Globals α) (grpc_ok : Nat → Bool) (st : State α)
    (c : Chunk) {s : Nat} {l : List Int}
    (hch : g.GLOBAL_NUMBER_OF_CHANNELS = 2) (hrate : supportedRate g)
    (hsos : c.isSOS = false) (heos : c.isEOS = false)
    (hs : st.recog_pointers.streamer = some s)
    (hl : st.recog_pointers.leftch = some l)
    (hlen : l.length = framesPerBufferOf g c.readbyteSize)
    (hM : 0 < g.chunkMoveSamples_M)
    (hN : g.chunkSizeSamples_N ≤ framesPerBufferOf g c.readbyteSize)
    (hhalf : g.chunkMoveSamples_M ≤
      2 * ((framesPerBufferOf g c.readbyteSize - g.chunkSizeSamples_N) %
        g.chunkMoveSamples_M)) :
    speech_callback g grpc_ok st c = none := by
  have hch0 : g.GLOBAL_NUMBER_OF_CHANNELS ≠ 0 := by omega
  unfold speech_callback
  rw [prepareAudio_supported st c hch0 hrate]
  simp only [hsos, heos, Bool.not_false, Bool.false_eq_true, if_true, if_false]
  unfold speechChunk
  rw [writeAudio_buffer grpc_ok _ (b := adaptedSamples g c) rfl,
    streamCall_some (s := s) (by simpa using hs)]
  simp only [hch, if_true]
  rw [accumulateDoa_overread g _ c _ (l := l) (by simpa using hl) hlen hM hN hhalf]

end WindowLemmas

/-- C11: with `chunkMoveSamples_M > 0` and `framesPerBuffer >=
chunkSizeSamples_N`, write `r` for the remainder of `framesPerBuffer -
chunkSizeSamples_N` by `chunkMoveSamples_M`. When `2 * r <
chunkMoveSamples_M`, `round` rounds down and every index
`doa_chunk_count * chunkMoveSamples_M + hw` of the windowing loops is below
`framesPerBuffer`. When `2 * r >= chunkMoveSamples_M`, `round` rounds up,
`totalChunksNo` counts one window more than fit, and the loops read an index
that is at least `framesPerBuffer`. -/
theorem C11_window_index_bound {α : Type} (g : Globals α) (framesPerBuffer : Nat)
    (hM : 0 < g.chunkMoveSamples_M) (hN : g.chunkSizeSamples_N ≤ framesPerBuffer) :
    (2 * ((framesPerBuffer - g.chunkSizeSamples_N) % g.chunkMoveSamples_M) <
          g.chunkMoveSamples_M →
        ∀ doa_chunk_count hw : Nat,
          (doa_chunk_count : Int) < totalChunksNoOf g framesPerBuffer →
          hw < g.chunkSizeSamples_N →
          doa_chunk_count * g.chunkMoveSamples_M + hw < framesPerBuffer) ∧
      (g.chunkMoveSamples_M ≤
          2 * ((framesPerBuffer - g.chunkSizeSamples_N) % g.chunkMoveSamples_M) →
        0 < g.chunkSizeSamples_N →
        ∃ doa_chunk_count hw : Nat,
          (doa_chunk_count : Int) < totalChunksNoOf g framesPerBuffer ∧
          hw < g.chunkSizeSamples_N ∧
          framesPerBuffer ≤ doa_chunk_count * g.chunkMoveSamples_M + hw) := by
  obtain ⟨hfit, hpast⟩ := lastWindow_start g framesPerBuffer hM hN
  rw [totalChunksNoOf_eq g framesPerBuffer hM hN]
  constructor
  · intro hdown count hw hcount hhw
    rw [if_neg (by omega)] at hcount
    have hc : count ≤ (framesPerBuffer - g.chunkSizeSamples_N) / g.chunkMoveSamples_M := by
      omega
    have hmul := Nat.mul_le_mul_right g.chunkMoveSamples_M hc
    omega
  · intro hup hNpos
    refine ⟨(framesPerBuffer - g.chunkSizeSamples_N) / g.chunkMoveSamples_M + 1,
      g.chunkSizeSamples_N - 1, ?_, by omega, by omega⟩
    rw [if_pos hup]
    omega

/-- C11 at `framesPerBuffer = 5`, `chunkSizeSamples_N = 4`,
`chunkMoveSamples_M = 2`: `totalChunksNo = round(0.5 + 1.0) = 2`, and the
second window (`doa_chunk_count = 1`) reads the index `1 * 2 + 3 = 5` of
buffers that hold 5 samples; the callback has no defined result on such a
chunk. -/
theorem C11_window_index_witness :
    0 < (sampleGlobals 16000 2 (fun v : ℚ => v)).chunkMoveSamples_M ∧
      (sampleGlobals 16000 2 (fun v : ℚ => v)).chunkSizeSamples_N ≤ 5 ∧
      totalChunksNoOf (sampleGlobals 16000 2 (fun v : ℚ => v)) 5 = 2 ∧
      (∃ doa_chunk_count hw : Nat,
        (doa_chunk_count : Int) < totalChunksNoOf (sampleGlobals 16000 2 (fun v : ℚ => v)) 5 ∧
        hw < 4 ∧ 5 ≤ doa_chunk_count * 2 + hw) ∧
      speech_callback (sampleGlobals 16000 2 (fun v : ℚ => v)) (fun _ => true)
        (stereoSegmentState 5) stereoChunk = none :=
  ⟨by decide, by decide,
   (totalChunksNoOf_eq (sampleGlobals 16000 2 (fun v : ℚ => v)) 5 (by decide) (by decide)).trans
     (by decide),
   (C11_window_index_bound (sampleGlobals 16000 2 (fun v : ℚ => v)) 5 (by decide)
      (by decide)).2 (by decide) (by decide),
   speech_callback_overread (sampleGlobals 16000 2 (fun v : ℚ => v)) (fun _ => true)
     (stereoSegmentState 5) stereoChunk (s := 0) (l := [0, 0, 0, 0, 0]) rfl (Or.inl rfl) rfl rfl
     rfl rfl (by decide) (by decide) (by decide) (by decide)⟩

end SpeechRecog
